import Mathlib

/-!
# WMT GPIO driver (`board/wmt/wmt_gpio.c`)

A shallow embedding of the bootloader GPIO driver: the descriptor table, the
memory-mapped register file with a log of every byte access, and the public
operations `gpio_request`, `gpio_free`, `gpio_get_value`, `gpio_set_value`,
`gpio_direction_input`, `gpio_direction_output` and `gpio_setpull`; the
environment parser `parse_gpio_env` with the scanner it calls; and theorems
about them.

Conventions of the embedding:
* `unsigned char` values are `Fin 256`; `unsigned` pin numbers and addresses
  are `Nat` (no address computed here reaches `2^32`); `int` results are `Int`.
* `int` bit patterns are 32-bit naturals: `1 << shift` is
  `(1 <<< shift) % 2^32` and `~x` is `2^32 - 1 - x`; a store into a
  `uint8_t` keeps the value modulo 256.
* Every operation threads a `Machine`: the register file, the chronological
  log of byte reads and writes, and the list of indices at which the
  descriptor table was evaluated.
-/

namespace WmtGpio

/-! ## Data model -/

/-- One entry of `wmt_gpios[]` (`struct wmt_gpio`); the label is diagnostic only. -/
structure wmt_gpio where
  regoff : Fin 256
  shift : Fin 256
  irqnum : Int
  deriving DecidableEq, Repr

/-- The board-specific part the driver is compiled against: the descriptor
table generated from `include/iomux.h`, and what a load from `wmt_gpios[i]`
yields when `i` lies outside the table (whatever memory holds there). -/
structure Board where
  wmt_gpios : List wmt_gpio
  beyond : Nat → wmt_gpio

/-- A byte access to the memory-mapped register region. -/
inductive Access where
  | readb (addr : Nat)
  | writeb (val : Nat) (addr : Nat)
  deriving DecidableEq, Repr

/-- Register file, access log (oldest first) and table indices evaluated so far. -/
structure Machine where
  mem : Nat → Fin 256
  log : List Access
  lookups : List Nat

def INVALUE_REGS : Nat := 0x00
def ENABLE_REGS : Nat := 0x40
def DIRECTION_REGS : Nat := 0x80
def OUTVALUE_REGS : Nat := 0xc0
def INTMASK_REGS : Nat := 0x300
def INTSTAT_REGS : Nat := 0x360
def PULLENABLE_REGS : Nat := 0x480
def PULLCONTROL_REGS : Nat := 0x4c0

def GPIO_BASE_ADDR : Nat := 0xD8110000

/-- The driver never assigns `port_base` after its initialiser. -/
def port_base : Nat := GPIO_BASE_ADDR

/-- The value of `EINVAL` from `asm/errno.h`. -/
def EINVAL : Int := 22

/-- Modelled from the spec: `enum gpio_pulltype` is declared in
`include/wmt_iomux.h`, which is not part of the sources at hand. The spec names
the modes None, Up and Down and says any other requested mode value is an
error; `other` stands for an enumerator value that is none of the three. -/
inductive gpio_pulltype where
  | GPIO_PULL_NONE
  | GPIO_PULL_UP
  | GPIO_PULL_DOWN
  | other (code : Nat)
  deriving DecidableEq, Repr

/-- Modelled from the spec: `gpio_is_valid` comes from `include/wmt_iomux.h`,
which is not part of the sources at hand. The spec: true iff the pin is a
non-negative index within the descriptor table bounds. -/
def gpio_is_valid (b : Board) (gpio : Nat) : Bool :=
  decide (gpio < b.wmt_gpios.length)

/-! ## Primitive accesses -/

/-- What `wmt_gpios[gpio]` denotes: the table entry, or the bytes found beyond
the table when the index is out of range. -/
def descriptor (b : Board) (gpio : Nat) : wmt_gpio :=
  (b.wmt_gpios.get? gpio).getD (b.beyond gpio)

/-- Evaluation of `wmt_gpios[gpio]`, recording the index used. -/
def wmt_gpios_at (b : Board) (gpio : Nat) (s : Machine) : wmt_gpio × Machine :=
  (descriptor b gpio, { s with lookups := s.lookups ++ [gpio] })

/-- Byte load from the register region. -/
def __raw_readb (addr : Nat) (s : Machine) : Nat × Machine :=
  ((s.mem addr).val, { s with log := s.log ++ [Access.readb addr] })

/-- Byte store to the register region. -/
def __raw_writeb (val : Nat) (addr : Nat) (s : Machine) : Machine :=
  { s with
    mem := fun a => if a = addr then ⟨val % 256, Nat.mod_lt _ (by decide)⟩ else s.mem a
    log := s.log ++ [Access.writeb val addr] }

/-- The `int` bit pattern of `1 << shift`. -/
def bit_mask (shift : Nat) : Nat := (1 <<< shift) % 2 ^ 32

/-- The statement `val |= (1 << shift)` on a `uint8_t`. -/
def set_bit (val shift : Nat) : Nat := (val ||| bit_mask shift) % 256

/-- The statement `val &= ~(1 << shift)` on a `uint8_t`. -/
def clear_bit (val shift : Nat) : Nat := (val &&& (2 ^ 32 - 1 - bit_mask shift)) % 256

/-! ## The driver -/

def gpio_request (b : Board) (gpio : Nat) (s : Machine) : Int × Machine :=
  let (d, s) := wmt_gpios_at b gpio s
  let regoff := d.regoff.val
  let (d, s) := wmt_gpios_at b gpio s
  let shift := d.shift.val
  if !gpio_is_valid b gpio then (-EINVAL, s)
  else
    let (val, s) := __raw_readb (port_base + ENABLE_REGS + regoff) s
    let val := set_bit val shift
    let s := __raw_writeb val (port_base + ENABLE_REGS + regoff) s
    (0, s)

def gpio_free (b : Board) (gpio : Nat) (s : Machine) : Machine :=
  let (d, s) := wmt_gpios_at b gpio s
  let regoff := d.regoff.val
  let (d, s) := wmt_gpios_at b gpio s
  let shift := d.shift.val
  if !gpio_is_valid b gpio then s
  else
    let (val, s) := __raw_readb (port_base + ENABLE_REGS + regoff) s
    let val := clear_bit val shift
    __raw_writeb val (port_base + ENABLE_REGS + regoff) s

def _set_gpio_direction (b : Board) (gpio : Nat) (dir : Int) (s : Machine) : Machine :=
  let (d, s) := wmt_gpios_at b gpio s
  let regoff := d.regoff.val
  let (d, s) := wmt_gpios_at b gpio s
  let shift := d.shift.val
  let (val, s) := __raw_readb (port_base + DIRECTION_REGS + regoff) s
  let val := if dir ≠ 0 then set_bit val shift else clear_bit val shift
  __raw_writeb val (port_base + DIRECTION_REGS + regoff) s

def gpio_get_value (b : Board) (gpio : Nat) (s : Machine) : Int × Machine :=
  let (d, s) := wmt_gpios_at b gpio s
  let regoff := d.regoff.val
  let (d, s) := wmt_gpios_at b gpio s
  let shift := d.shift.val
  if !gpio_is_valid b gpio then (-EINVAL, s)
  else
    let (val, s) := __raw_readb (port_base + INVALUE_REGS + regoff) s
    ((((val >>> shift) &&& 1 : Nat) : Int), s)

def gpio_set_value (b : Board) (gpio : Nat) (value : Int) (s : Machine) : Machine :=
  let (d, s) := wmt_gpios_at b gpio s
  let regoff := d.regoff.val
  let (d, s) := wmt_gpios_at b gpio s
  let shift := d.shift.val
  if !gpio_is_valid b gpio then s
  else
    let (val, s) := __raw_readb (port_base + OUTVALUE_REGS + regoff) s
    let val := if value ≠ 0 then set_bit val shift else clear_bit val shift
    __raw_writeb val (port_base + OUTVALUE_REGS + regoff) s

def gpio_direction_input (b : Board) (gpio : Nat) (s : Machine) : Int × Machine :=
  if !gpio_is_valid b gpio then (-EINVAL, s)
  else
    let s := (gpio_request b gpio s).2
    let s := _set_gpio_direction b gpio 0 s
    (0, s)

def gpio_direction_output (b : Board) (gpio : Nat) (value : Int) (s : Machine) :
    Int × Machine :=
  if !gpio_is_valid b gpio then (-EINVAL, s)
  else
    let s := (gpio_request b gpio s).2
    let s := gpio_set_value b gpio value s
    let s := _set_gpio_direction b gpio 1 s
    (0, s)

def _set_gpio_pullenable (b : Board) (gpio : Nat) (enable : Int) (s : Machine) : Machine :=
  let (d, s) := wmt_gpios_at b gpio s
  let regoff := d.regoff.val
  let (d, s) := wmt_gpios_at b gpio s
  let shift := d.shift.val
  let (val, s) := __raw_readb (port_base + PULLENABLE_REGS + regoff) s
  let val := if enable ≠ 0 then set_bit val shift else clear_bit val shift
  __raw_writeb val (port_base + PULLENABLE_REGS + regoff) s

def _set_gpio_pullup (b : Board) (gpio : Nat) (up : Int) (s : Machine) : Machine :=
  let (d, s) := wmt_gpios_at b gpio s
  let regoff := d.regoff.val
  let (d, s) := wmt_gpios_at b gpio s
  let shift := d.shift.val
  let (val, s) := __raw_readb (port_base + PULLCONTROL_REGS + regoff) s
  let val := if up ≠ 0 then set_bit val shift else clear_bit val shift
  __raw_writeb val (port_base + PULLCONTROL_REGS + regoff) s

def gpio_setpull (b : Board) (gpio : Nat) (pull : gpio_pulltype) (s : Machine) :
    Int × Machine :=
  if !gpio_is_valid b gpio then (-EINVAL, s)
  else
    match pull with
    | .GPIO_PULL_NONE =>
      let s := _set_gpio_pullenable b gpio 0 s
      (0, s)
    | .GPIO_PULL_UP =>
      let s := _set_gpio_pullenable b gpio 1 s
      let s := _set_gpio_pullup b gpio 1 s
      (0, s)
    | .GPIO_PULL_DOWN =>
      let s := _set_gpio_pullenable b gpio 1 s
      let s := _set_gpio_pullup b gpio 0 s
      (0, s)
    | .other _ => (-EINVAL, s)

/-! ## Observations used in the statements -/

/-- The `uint8_t regoff` local of every operation. -/
def regoff_of (b : Board) (gpio : Nat) : Nat := (descriptor b gpio).regoff.val

/-- The `uint8_t shift` local of every operation. -/
def shift_of (b : Board) (gpio : Nat) : Nat := (descriptor b gpio).shift.val

/-- Bit `i` of the byte at `addr` in a register file. -/
def reg_bit (m : Nat → Fin 256) (addr i : Nat) : Bool := (m addr).val.testBit i

/-- The register file obtained from `m` by performing the writes of an access
log in order. -/
def replay (m : Nat → Fin 256) : List Access → (Nat → Fin 256)
  | [] => m
  | Access.readb _ :: l => replay m l
  | Access.writeb v a :: l =>
    replay (fun x => if x = a then ⟨v % 256, Nat.mod_lt _ (by decide)⟩ else m x) l

/-- The writes of an access log, as (address, value stored) pairs, oldest first. -/
def writes_of : List Access → List (Nat × Nat)
  | [] => []
  | Access.readb _ :: l => writes_of l
  | Access.writeb v a :: l => (a, v % 256) :: writes_of l

/-- A small board for concrete evaluation: three pins in two bank bytes. -/
def demo_board : Board where
  wmt_gpios := [⟨0, 0, 0⟩, ⟨0, 3, 1⟩, ⟨1, 7, 2⟩]
  beyond := fun _ => ⟨0x55, 2, 0⟩

/-- A register file in which every byte reads `v`, with empty logs. -/
def fill (v : Fin 256) : Machine := ⟨fun _ => v, [], []⟩


/-! ## The shape shared by the read-modify-write routines -/

/-- The value a routine stores: the byte read with bit `shift` forced to `lvl`. -/
def force_bit (lvl : Bool) (val shift : Nat) : Nat :=
  if lvl then set_bit val shift else clear_bit val shift

/-- A register file with bit `shift` of the byte at `addr` forced to `lvl`. -/
def poke (m : Nat → Fin 256) (addr shift : Nat) (lvl : Bool) : Nat → Fin 256 :=
  fun a => if a = addr then ⟨force_bit lvl (m a).val shift % 256, Nat.mod_lt _ (by decide)⟩
    else m a

/-- The machine after the two loads `wmt_gpios[gpio].regoff` and `wmt_gpios[gpio].shift`. -/
def looked (gpio : Nat) (s : Machine) : Machine :=
  { s with lookups := s.lookups ++ [gpio] ++ [gpio] }

/-- The two accesses of one read-modify-write on the register file `m`. -/
def rmw_log (m : Nat → Fin 256) (addr shift : Nat) (lvl : Bool) : List Access :=
  [Access.readb addr, Access.writeb (force_bit lvl (m addr).val shift) addr]

/-- One read of the byte at `addr` followed by one write of that byte with bit
`shift` forced to `lvl`. -/
def rmw (addr shift : Nat) (lvl : Bool) (s : Machine) : Machine :=
  { s with
    mem := poke s.mem addr shift lvl
    log := s.log ++ rmw_log s.mem addr shift lvl }

/-! ## The environment parser -/

/-- Modelled from the spec: the record type `GPIO_ENV` is declared in
`include/wmt_iomux.h`, which is not part of the sources at hand. The spec: a pin
number and an active-level flag. Both fields hold what the `long` array element
assigned to them holds. -/
structure GPIO_ENV where
  gpiono : Int
  active : Int
  deriving DecidableEq, Repr

/-- The two diagnostics `parse_gpio_env` can print. -/
inductive parse_message where
  | wrong_env_num
  | wrong_gpio_no
  deriving DecidableEq, Repr

/-- What a call of `parse_gpio_env` leaves behind: the value returned, the
record behind `p_env`, and the diagnostic printed, if any. -/
structure parse_outcome where
  ret : Int
  env : GPIO_ENV
  printed : Option parse_message
  deriving DecidableEq, Repr

/-- The value of a digit character: `0`-`9`, `a`-`f`, `A`-`F`. -/
def digit_value (c : Char) : Option Nat :=
  if 48 ≤ c.toNat ∧ c.toNat ≤ 57 then some (c.toNat - 48)
  else if 97 ≤ c.toNat ∧ c.toNat ≤ 102 then some (c.toNat - 97 + 10)
  else if 65 ≤ c.toNat ∧ c.toNat ≤ 70 then some (c.toNat - 65 + 10)
  else none

/-- Whether `c` is a digit of radix `base`. -/
def is_digit_of (base : Nat) (c : Char) : Bool :=
  match digit_value c with
  | some d => decide (d < base)
  | none => false

/-- Consume as many digits of radix `base` as there are, accumulating their
value; the second component is the text from the first non-digit on. -/
def scan_digits (base : Nat) : Nat → List Char → Nat × List Char
  | acc, [] => (acc, [])
  | acc, c :: cs =>
    if is_digit_of base c then scan_digits base (acc * base + (digit_value c).getD 0) cs
    else (acc, c :: cs)

/-- Modelled from the spec: `simple_strtoul` is a string-to-integer primitive
outside the sources at hand. The spec: parse as much valid digit text as
possible and report the first non-digit position, radix auto-detected (`0x`
prefix is hex, leading `0` is octal, else decimal). The first component is the
value scanned, the second the text at `*endp`. The value is the mathematical
one; its width enters where the caller stores it. -/
def simple_strtoul (cp : List Char) : Nat × List Char :=
  match cp with
  | [] => scan_digits 10 0 []
  | c0 :: rest =>
    if c0 = '0' then
      match rest with
      | c1 :: c2 :: rest2 =>
        if c1 = 'x' ∧ is_digit_of 16 c2 = true then scan_digits 16 0 (c2 :: rest2)
        else scan_digits 8 0 rest
      | _ => scan_digits 8 0 rest
    else scan_digits 10 0 (c0 :: rest)

/-- Conversion of a scanned value to `long` (32 bits on this ARM target): the
low 32 bits, read as a signed number. -/
def to_long (n : Nat) : Int :=
  if n % 2 ^ 32 < 2 ^ 31 then ((n % 2 ^ 32 : Nat) : Int)
  else ((n % 2 ^ 32 : Nat) : Int) - 2 ^ 32

/-- The enumerator `idx_max`. -/
def idx_max : Nat := 2

/-- The loop `while (i < idx_max)` of `parse_gpio_env` on the state `(p, ps, i)`.
The first argument bounds the iterations still possible; since `i` grows by one
in each iteration, `idx_max` of them are enough from `i = 0`. The result is the
array `ps` and the counter `i` at loop exit. -/
def scan_loop : Nat → List Char → Int × Int → Nat → (Int × Int) × Nat
  | 0, _, ps, i => (ps, i)
  | n + 1, p, ps, i =>
    if i < idx_max then
      let r := simple_strtoul p
      let ps := if i = 0 then (to_long r.1, ps.2) else (ps.1, to_long r.1)
      let i := i + 1
      match r.2 with
      | [] => (ps, i)
      | _ :: p =>
        match p with
        | [] => (ps, i)
        | _ :: _ => scan_loop n p ps i
    else (ps, i)

/-- Modelled from the spec: the argument of `gpio_is_valid` in `parse_gpio_env`
is the signed field `gpiono`; valid means a non-negative index within the
descriptor table bounds. -/
def gpio_is_valid_signed (b : Board) (gpiono : Int) : Bool :=
  decide (0 ≤ gpiono) && gpio_is_valid b gpiono.toNat

/-- The function `parse_gpio_env`. The environment lookup `getenv` is a
parameter; `none` stands for a null result. -/
def parse_gpio_env (b : Board) (getenv : List Char → Option (List Char))
    (name : List Char) (p_env : GPIO_ENV) : parse_outcome :=
  match getenv name with
  | none => ⟨-1, p_env, none⟩
  | some p =>
    let r := scan_loop idx_max p (0, 0) 0
    let ps := r.1
    let i := r.2
    let p_env : GPIO_ENV := ⟨ps.1, ps.2⟩
    if i ≠ 2 then ⟨-1, p_env, some parse_message.wrong_env_num⟩
    else if gpio_is_valid_signed b p_env.gpiono then ⟨0, p_env, none⟩
    else ⟨-1, p_env, some parse_message.wrong_gpio_no⟩

/-! ### The format the claims speak of -/

/-- The number written by the digit string `ds` in radix `base`. -/
def digits_value (base : Nat) (ds : List Char) : Nat :=
  ds.foldl (fun acc c => acc * base + (digit_value c).getD 0) 0

/-- The value of an unsigned integer literal, if the whole text is one:
`0x` followed by hex digits, `0` followed by octal digits, or decimal digits
not starting with `0`. -/
def literal_value (l : List Char) : Option Nat :=
  match l with
  | [] => none
  | c0 :: rest =>
    if c0 = '0' then
      match rest with
      | [] => some 0
      | c1 :: ds =>
        if c1 = 'x' then
          if ds ≠ [] ∧ ds.all (is_digit_of 16) = true then some (digits_value 16 ds) else none
        else if rest.all (is_digit_of 8) = true then some (digits_value 8 rest) else none
    else if (c0 :: rest).all (is_digit_of 10) = true then some (digits_value 10 (c0 :: rest))
    else none

/-- The radix a literal is read in. -/
def radix_of (l : List Char) : Nat :=
  match l with
  | [] => 10
  | c0 :: rest =>
    if c0 = '0' then
      match rest with
      | [] => 8
      | c1 :: _ => if c1 = 'x' then 16 else 8
    else 10

/-- Whether the text `t` following the literal `lit` leaves it as it is: `t` is
empty, or its first character is not a digit of the radix of `lit` and does not
turn a lone `0` into a `0x` prefix. -/
def leaves_literal (lit t : List Char) : Bool :=
  match t with
  | [] => true
  | c :: t2 =>
    !is_digit_of (radix_of lit) c &&
      !(decide (lit = ['0']) && decide (c = 'x') &&
        (match t2 with
          | [] => false
          | c2 :: _ => is_digit_of 16 c2))

/-- A board of 32 pins, four bank bytes of eight bits each. -/
def wide_board : Board where
  wmt_gpios := (List.range 32).map (fun i => ⟨Fin.ofNat (i / 8), Fin.ofNat (i % 8), i⟩)
  beyond := fun _ => ⟨0, 0, 0⟩

/-! ## Operations on two pins -/

/-- The single-pin operations that write to the register file, with their
arguments other than the pin. -/
inductive mutator where
  | request
  | free
  | set_value (value : Int)
  | direction_input
  | direction_output (value : Int)
  | setpull (pull : gpio_pulltype)

/-- The machine after running one of these operations on pin `gpio`. -/
def mutate (b : Board) (gpio : Nat) : mutator → Machine → Machine
  | mutator.request, s => (gpio_request b gpio s).2
  | mutator.free, s => gpio_free b gpio s
  | mutator.set_value v, s => gpio_set_value b gpio v s
  | mutator.direction_input, s => (gpio_direction_input b gpio s).2
  | mutator.direction_output v, s => (gpio_direction_output b gpio v s).2
  | mutator.setpull pull, s => (gpio_setpull b gpio pull s).2

/-- The banks that hold one bit per pin and are written by the driver. -/
def pin_banks : List Nat :=
  [ENABLE_REGS, DIRECTION_REGS, OUTVALUE_REGS, PULLENABLE_REGS, PULLCONTROL_REGS]

/-- The banks an operation writes on a valid pin, in order, each with the level
it forces the bit of the pin to. -/
def forced : mutator → List (Nat × Bool)
  | mutator.request => [(ENABLE_REGS, true)]
  | mutator.free => [(ENABLE_REGS, false)]
  | mutator.set_value v => [(OUTVALUE_REGS, decide (v ≠ 0))]
  | mutator.direction_input => [(ENABLE_REGS, true), (DIRECTION_REGS, false)]
  | mutator.direction_output v =>
    [(ENABLE_REGS, true), (OUTVALUE_REGS, decide (v ≠ 0)), (DIRECTION_REGS, true)]
  | mutator.setpull gpio_pulltype.GPIO_PULL_NONE => [(PULLENABLE_REGS, false)]
  | mutator.setpull gpio_pulltype.GPIO_PULL_UP =>
    [(PULLENABLE_REGS, true), (PULLCONTROL_REGS, true)]
  | mutator.setpull gpio_pulltype.GPIO_PULL_DOWN =>
    [(PULLENABLE_REGS, true), (PULLCONTROL_REGS, false)]
  | mutator.setpull (gpio_pulltype.other _) => []

/-- A register file after forcing bit `shift` of the byte at offset `regoff` in
each listed bank, in order. -/
def poke_all (m : Nat → Fin 256) (regoff shift : Nat) : List (Nat × Bool) → (Nat → Fin 256)
  | [] => m
  | x :: l => poke_all (poke m (port_base + x.1 + regoff) shift x.2) regoff shift l

/-- Whether forcing bit `shift` at offset `regoff` in the listed banks reaches
bit `i` of the byte at `a`. -/
def touches (regoff shift : Nat) (l : List (Nat × Bool)) (a i : Nat) : Prop :=
  shift < 8 ∧ i = shift ∧ ∃ x, x ∈ l ∧ a = port_base + x.1 + regoff

/-- The four banks of the first group: input value, enable, direction, output
value. -/
def value_banks : List Nat := [INVALUE_REGS, ENABLE_REGS, DIRECTION_REGS, OUTVALUE_REGS]

/-- Every bank the driver reads or writes. -/
def all_banks : List Nat := value_banks ++ [PULLENABLE_REGS, PULLCONTROL_REGS]

/-- A board on which pin 0 has register offset 0x40 and pin 1 offset 0. -/
def alias_board : Board where
  wmt_gpios := [⟨0x40, 0, 0⟩, ⟨0, 0, 1⟩]
  beyond := fun _ => ⟨0, 0, 0⟩

/-! ## Bit-level facts about the read-modify-write statements -/

theorem testBit_bit_mask (s i : Nat) :
    (bit_mask s).testBit i = (decide (i < 32) && decide (s = i)) := by
  unfold bit_mask
  rw [Nat.testBit_mod_two_pow, Nat.one_shiftLeft, Nat.testBit_two_pow]

theorem testBit_set_bit (v s i : Nat) :
    (set_bit v s).testBit i = (decide (i < 8) && (v.testBit i || decide (s = i))) := by
  unfold set_bit
  rw [show (256 : Nat) = 2 ^ 8 from rfl, Nat.testBit_mod_two_pow, Nat.testBit_or,
    testBit_bit_mask]
  by_cases h8 : i < 8
  · have : i < 32 := by omega
    simp [h8, this]
  · simp [h8]

theorem testBit_clear_bit (v s i : Nat) :
    (clear_bit v s).testBit i = (decide (i < 8) && (v.testBit i && !decide (s = i))) := by
  unfold clear_bit
  have hlt : bit_mask s < 2 ^ 32 := Nat.mod_lt _ (by decide)
  have hsub : 2 ^ 32 - 1 - bit_mask s = 2 ^ 32 - (bit_mask s + 1) := by omega
  rw [hsub, show (256 : Nat) = 2 ^ 8 from rfl, Nat.testBit_mod_two_pow, Nat.testBit_and,
    Nat.testBit_two_pow_sub_succ hlt, testBit_bit_mask]
  by_cases h8 : i < 8
  · have : i < 32 := by omega
    simp [h8, this]
  · simp [h8]

theorem testBit_byte_high (x : Fin 256) (i : Nat) (h : 8 ≤ i) : x.val.testBit i = false := by
  apply Nat.testBit_lt_two_pow
  calc x.val < 256 := x.isLt
    _ = 2 ^ 8 := rfl
    _ ≤ 2 ^ i := Nat.pow_le_pow_right (by decide) h


/-! ## Facts about the shared shape -/

theorem force_bit_lt (lvl : Bool) (v s : Nat) : force_bit lvl v s < 256 := by
  unfold force_bit set_bit clear_bit
  split <;> exact Nat.mod_lt _ (by decide)

theorem testBit_force_bit (lvl : Bool) (v s i : Nat) :
    (force_bit lvl v s).testBit i =
      (decide (i < 8) && (if s = i then lvl else v.testBit i)) := by
  unfold force_bit
  cases lvl <;> by_cases h : s = i <;> simp [testBit_set_bit, testBit_clear_bit, h]

theorem testBit_poke (m : Nat → Fin 256) (addr shift : Nat) (lvl : Bool) (a i : Nat) :
    ((poke m addr shift lvl a).val).testBit i =
      if a = addr ∧ i = shift ∧ shift < 8 then lvl else (m a).val.testBit i := by
  unfold poke
  by_cases ha : a = addr
  · subst ha
    simp only [if_true, true_and, Nat.mod_eq_of_lt (force_bit_lt _ _ _), testBit_force_bit]
    by_cases h8 : i < 8
    · by_cases hi : shift = i
      · subst hi; simp [h8]
      · have : ¬ i = shift := fun h => hi h.symm
        simp [h8, hi, this]
    · have hhi := testBit_byte_high (m a) i (by omega)
      have : ¬ (i = shift ∧ shift < 8) := fun h => h8 (h.1 ▸ h.2)
      simp [h8, hhi, this]
  · simp [ha]

theorem mem_ext {m m2 : Nat → Fin 256}
    (h : ∀ a i, (m a).val.testBit i = (m2 a).val.testBit i) : m = m2 := by
  funext a
  exact Fin.ext (Nat.eq_of_testBit_eq (h a))

theorem writeb_readb (addr shift : Nat) (lvl : Bool) (s : Machine) :
    __raw_writeb (force_bit lvl (__raw_readb addr s).1 shift) addr (__raw_readb addr s).2 =
      rmw addr shift lvl s := by
  have hm : (fun a => if a = addr then
        (⟨force_bit lvl (s.mem addr).val shift % 256, Nat.mod_lt _ (by decide)⟩ : Fin 256)
      else s.mem a) = poke s.mem addr shift lvl := by
    funext a
    unfold poke
    by_cases ha : a = addr
    · subst ha; rfl
    · simp [ha]
  simp [__raw_writeb, __raw_readb, rmw, rmw_log, hm]

/-! ## Each routine as an instance of that shape -/

theorem gpio_request_eq (b : Board) (gpio : Nat) (s : Machine)
    (hv : gpio_is_valid b gpio = true) :
    gpio_request b gpio s =
      (0, rmw (port_base + ENABLE_REGS + regoff_of b gpio) (shift_of b gpio) true
        (looked gpio s)) := by
  rw [← writeb_readb]
  simp [gpio_request, wmt_gpios_at, hv, regoff_of, shift_of, looked, force_bit]

theorem gpio_free_eq (b : Board) (gpio : Nat) (s : Machine)
    (hv : gpio_is_valid b gpio = true) :
    gpio_free b gpio s =
      rmw (port_base + ENABLE_REGS + regoff_of b gpio) (shift_of b gpio) false
        (looked gpio s) := by
  rw [← writeb_readb]
  simp [gpio_free, wmt_gpios_at, hv, regoff_of, shift_of, looked, force_bit]

theorem set_gpio_direction_eq (b : Board) (gpio : Nat) (dir : Int) (s : Machine) :
    _set_gpio_direction b gpio dir s =
      rmw (port_base + DIRECTION_REGS + regoff_of b gpio) (shift_of b gpio) (decide (dir ≠ 0))
        (looked gpio s) := by
  rw [← writeb_readb]
  by_cases h : dir = 0 <;>
    simp [_set_gpio_direction, wmt_gpios_at, regoff_of, shift_of, looked, force_bit, h]

theorem gpio_set_value_eq (b : Board) (gpio : Nat) (value : Int) (s : Machine)
    (hv : gpio_is_valid b gpio = true) :
    gpio_set_value b gpio value s =
      rmw (port_base + OUTVALUE_REGS + regoff_of b gpio) (shift_of b gpio)
        (decide (value ≠ 0)) (looked gpio s) := by
  rw [← writeb_readb]
  by_cases h : value = 0 <;>
    simp [gpio_set_value, wmt_gpios_at, hv, regoff_of, shift_of, looked, force_bit, h]

theorem set_gpio_pullenable_eq (b : Board) (gpio : Nat) (enable : Int) (s : Machine) :
    _set_gpio_pullenable b gpio enable s =
      rmw (port_base + PULLENABLE_REGS + regoff_of b gpio) (shift_of b gpio)
        (decide (enable ≠ 0)) (looked gpio s) := by
  rw [← writeb_readb]
  by_cases h : enable = 0 <;>
    simp [_set_gpio_pullenable, wmt_gpios_at, regoff_of, shift_of, looked, force_bit, h]

theorem set_gpio_pullup_eq (b : Board) (gpio : Nat) (up : Int) (s : Machine) :
    _set_gpio_pullup b gpio up s =
      rmw (port_base + PULLCONTROL_REGS + regoff_of b gpio) (shift_of b gpio)
        (decide (up ≠ 0)) (looked gpio s) := by
  rw [← writeb_readb]
  by_cases h : up = 0 <;>
    simp [_set_gpio_pullup, wmt_gpios_at, regoff_of, shift_of, looked, force_bit, h]


theorem reg_bit_poke (m : Nat → Fin 256) (addr shift : Nat) (lvl : Bool) (a i : Nat) :
    reg_bit (poke m addr shift lvl) a i =
      if a = addr ∧ i = shift ∧ shift < 8 then lvl else reg_bit m a i :=
  testBit_poke m addr shift lvl a i

theorem poke_other (m : Nat → Fin 256) (addr shift : Nat) (lvl : Bool) (a : Nat)
    (h : a ≠ addr) : poke m addr shift lvl a = m a := by
  simp [poke, h]

theorem gpio_free_invalid (b : Board) (gpio : Nat) (s : Machine)
    (hv : gpio_is_valid b gpio = false) : gpio_free b gpio s = looked gpio s := by
  simp [gpio_free, wmt_gpios_at, hv, looked]

theorem gpio_request_invalid (b : Board) (gpio : Nat) (s : Machine)
    (hv : gpio_is_valid b gpio = false) : gpio_request b gpio s = (-EINVAL, looked gpio s) := by
  simp [gpio_request, wmt_gpios_at, hv, looked]

theorem gpio_get_value_invalid (b : Board) (gpio : Nat) (s : Machine)
    (hv : gpio_is_valid b gpio = false) :
    gpio_get_value b gpio s = (-EINVAL, looked gpio s) := by
  simp [gpio_get_value, wmt_gpios_at, hv, looked]

theorem gpio_set_value_invalid (b : Board) (gpio : Nat) (value : Int) (s : Machine)
    (hv : gpio_is_valid b gpio = false) : gpio_set_value b gpio value s = looked gpio s := by
  simp [gpio_set_value, wmt_gpios_at, hv, looked]

theorem gpio_direction_output_eq (b : Board) (gpio : Nat) (value : Int) (s : Machine)
    (hv : gpio_is_valid b gpio = true) :
    gpio_direction_output b gpio value s =
      (0, rmw (port_base + DIRECTION_REGS + regoff_of b gpio) (shift_of b gpio) true
        (looked gpio
          (rmw (port_base + OUTVALUE_REGS + regoff_of b gpio) (shift_of b gpio)
            (decide (value ≠ 0))
            (looked gpio
              (rmw (port_base + ENABLE_REGS + regoff_of b gpio) (shift_of b gpio) true
                (looked gpio s)))))) := by
  simp [gpio_direction_output, hv, gpio_request_eq _ _ _ hv, gpio_set_value_eq _ _ _ _ hv,
    set_gpio_direction_eq]

theorem gpio_direction_input_eq (b : Board) (gpio : Nat) (s : Machine)
    (hv : gpio_is_valid b gpio = true) :
    gpio_direction_input b gpio s =
      (0, rmw (port_base + DIRECTION_REGS + regoff_of b gpio) (shift_of b gpio) false
        (looked gpio
          (rmw (port_base + ENABLE_REGS + regoff_of b gpio) (shift_of b gpio) true
            (looked gpio s)))) := by
  simp [gpio_direction_input, hv, gpio_request_eq _ _ _ hv, set_gpio_direction_eq]

theorem writes_of_append (l l2 : List Access) :
    writes_of (l ++ l2) = writes_of l ++ writes_of l2 := by
  induction l with
  | nil => rfl
  | cons x l ih => cases x <;> simp [writes_of, ih]

theorem replay_append (m : Nat → Fin 256) (l l2 : List Access) :
    replay m (l ++ l2) = replay (replay m l) l2 := by
  induction l generalizing m with
  | nil => rfl
  | cons x l ih => cases x <;> simp [replay, ih]

theorem replay_rmw (m : Nat → Fin 256) (addr shift : Nat) (lvl : Bool) :
    replay m (rmw_log m addr shift lvl) = poke m addr shift lvl := by
  funext a
  by_cases ha : a = addr
  · subst ha; simp [replay, rmw_log, poke]
  · simp [replay, rmw_log, poke, ha]

theorem gpio_setpull_none_eq (b : Board) (gpio : Nat) (s : Machine)
    (hv : gpio_is_valid b gpio = true) :
    gpio_setpull b gpio gpio_pulltype.GPIO_PULL_NONE s =
      (0, rmw (port_base + PULLENABLE_REGS + regoff_of b gpio) (shift_of b gpio) false
        (looked gpio s)) := by
  simp [gpio_setpull, hv, set_gpio_pullenable_eq]

theorem gpio_setpull_up_eq (b : Board) (gpio : Nat) (s : Machine)
    (hv : gpio_is_valid b gpio = true) :
    gpio_setpull b gpio gpio_pulltype.GPIO_PULL_UP s =
      (0, rmw (port_base + PULLCONTROL_REGS + regoff_of b gpio) (shift_of b gpio) true
        (looked gpio
          (rmw (port_base + PULLENABLE_REGS + regoff_of b gpio) (shift_of b gpio) true
            (looked gpio s)))) := by
  simp [gpio_setpull, hv, set_gpio_pullenable_eq, set_gpio_pullup_eq]

theorem gpio_setpull_down_eq (b : Board) (gpio : Nat) (s : Machine)
    (hv : gpio_is_valid b gpio = true) :
    gpio_setpull b gpio gpio_pulltype.GPIO_PULL_DOWN s =
      (0, rmw (port_base + PULLCONTROL_REGS + regoff_of b gpio) (shift_of b gpio) false
        (looked gpio
          (rmw (port_base + PULLENABLE_REGS + regoff_of b gpio) (shift_of b gpio) true
            (looked gpio s)))) := by
  simp [gpio_setpull, hv, set_gpio_pullenable_eq, set_gpio_pullup_eq]

/-! ## Value, request and free -/

/-- C1: after `gpio_set_value` on a valid pin with shift below 8, bit `shift`
of the Output-Value byte of the pin is 1 exactly when the value is nonzero, the
other bits of that byte keep their prior values, and every other byte of the
register file is unchanged. -/
theorem gpio_set_value_rmw (b : Board) (gpio : Nat) (value : Int) (s : Machine)
    (hv : gpio_is_valid b gpio = true) (hs : shift_of b gpio < 8) :
    reg_bit (gpio_set_value b gpio value s).mem
        (port_base + OUTVALUE_REGS + regoff_of b gpio) (shift_of b gpio) = decide (value ≠ 0) ∧
    (∀ i, i ≠ shift_of b gpio →
      reg_bit (gpio_set_value b gpio value s).mem (port_base + OUTVALUE_REGS + regoff_of b gpio) i =
        reg_bit s.mem (port_base + OUTVALUE_REGS + regoff_of b gpio) i) ∧
    (∀ a, a ≠ port_base + OUTVALUE_REGS + regoff_of b gpio →
      (gpio_set_value b gpio value s).mem a = s.mem a) := by
  rw [gpio_set_value_eq b gpio value s hv]
  refine ⟨?_, ?_, ?_⟩
  · simp [rmw, looked, reg_bit_poke, hs]
  · intro i hi
    simp [rmw, looked, reg_bit_poke, hi]
  · intro a ha
    simp [rmw, looked, poke_other _ _ _ _ _ ha]

/-- Witness for C1: pin 1 of the demo board (byte 0, bit 3), value 5, on a
register file of zero bytes. -/
theorem gpio_set_value_rmw_witness :
    gpio_is_valid demo_board 1 = true ∧ shift_of demo_board 1 < 8 ∧
    reg_bit (gpio_set_value demo_board 1 5 (fill 0)).mem
      (port_base + OUTVALUE_REGS + regoff_of demo_board 1) (shift_of demo_board 1) = true :=
  ⟨by decide, by decide, (gpio_set_value_rmw demo_board 1 5 (fill 0) (by decide) (by decide)).1⟩

/-- C2: `gpio_request` on a valid pin with shift below 8 returns 0, leaves bit
`shift` of the Enable byte of the pin at 1, and changes no other bit of that
byte and no other byte. -/
theorem gpio_request_frame (b : Board) (gpio : Nat) (s : Machine)
    (hv : gpio_is_valid b gpio = true) (hs : shift_of b gpio < 8) :
    (gpio_request b gpio s).1 = 0 ∧
    reg_bit (gpio_request b gpio s).2.mem
        (port_base + ENABLE_REGS + regoff_of b gpio) (shift_of b gpio) = true ∧
    (∀ i, i ≠ shift_of b gpio →
      reg_bit (gpio_request b gpio s).2.mem (port_base + ENABLE_REGS + regoff_of b gpio) i =
        reg_bit s.mem (port_base + ENABLE_REGS + regoff_of b gpio) i) ∧
    (∀ a, a ≠ port_base + ENABLE_REGS + regoff_of b gpio →
      (gpio_request b gpio s).2.mem a = s.mem a) := by
  rw [gpio_request_eq b gpio s hv]
  refine ⟨rfl, ?_, ?_, ?_⟩
  · simp [rmw, looked, reg_bit_poke, hs]
  · intro i hi
    simp [rmw, looked, reg_bit_poke, hi]
  · intro a ha
    simp [rmw, looked, poke_other _ _ _ _ _ ha]

/-- Witness for C2: pin 2 of the demo board (byte 1, bit 7) on a register file
of zero bytes. -/
theorem gpio_request_frame_witness :
    gpio_is_valid demo_board 2 = true ∧ shift_of demo_board 2 < 8 ∧
    (gpio_request demo_board 2 (fill 0)).1 = 0 ∧
    reg_bit (gpio_request demo_board 2 (fill 0)).2.mem
      (port_base + ENABLE_REGS + regoff_of demo_board 2) (shift_of demo_board 2) = true :=
  ⟨by decide, by decide,
    (gpio_request_frame demo_board 2 (fill 0) (by decide) (by decide)).1,
    (gpio_request_frame demo_board 2 (fill 0) (by decide) (by decide)).2.1⟩

/-- C3: `gpio_free` on a valid pin with shift below 8 leaves bit `shift` of the
Enable byte of the pin at 0 and changes no other bit of that byte and no other
byte. -/
theorem gpio_free_frame (b : Board) (gpio : Nat) (s : Machine)
    (hv : gpio_is_valid b gpio = true) (hs : shift_of b gpio < 8) :
    reg_bit (gpio_free b gpio s).mem
        (port_base + ENABLE_REGS + regoff_of b gpio) (shift_of b gpio) = false ∧
    (∀ i, i ≠ shift_of b gpio →
      reg_bit (gpio_free b gpio s).mem (port_base + ENABLE_REGS + regoff_of b gpio) i =
        reg_bit s.mem (port_base + ENABLE_REGS + regoff_of b gpio) i) ∧
    (∀ a, a ≠ port_base + ENABLE_REGS + regoff_of b gpio →
      (gpio_free b gpio s).mem a = s.mem a) := by
  rw [gpio_free_eq b gpio s hv]
  refine ⟨?_, ?_, ?_⟩
  · simp [rmw, looked, reg_bit_poke, hs]
  · intro i hi
    simp [rmw, looked, reg_bit_poke, hi]
  · intro a ha
    simp [rmw, looked, poke_other _ _ _ _ _ ha]

/-- Witness for C3: pin 1 of the demo board on a register file of 0xff bytes. -/
theorem gpio_free_frame_witness :
    gpio_is_valid demo_board 1 = true ∧ shift_of demo_board 1 < 8 ∧
    reg_bit (gpio_free demo_board 1 (fill 255)).mem
      (port_base + ENABLE_REGS + regoff_of demo_board 1) (shift_of demo_board 1) = false :=
  ⟨by decide, by decide, (gpio_free_frame demo_board 1 (fill 255) (by decide) (by decide)).1⟩


/-- C4: `gpio_free` is idempotent on the register file, for every pin (valid or
not, any shift): freeing twice leaves the same register file as freeing once,
and freeing a pin whose Enable bit is already 0 leaves the register file as it
was. -/
theorem gpio_free_idempotent (b : Board) (gpio : Nat) (s : Machine) :
    (gpio_free b gpio (gpio_free b gpio s)).mem = (gpio_free b gpio s).mem ∧
    (reg_bit s.mem (port_base + ENABLE_REGS + regoff_of b gpio) (shift_of b gpio) = false →
      (gpio_free b gpio s).mem = s.mem) := by
  cases hv : gpio_is_valid b gpio with
  | false =>
    simp [gpio_free_invalid _ _ _ hv, looked]
  | true =>
    simp only [gpio_free_eq _ _ _ hv, rmw, looked]
    constructor
    · apply mem_ext
      intro a i
      rw [testBit_poke, testBit_poke]
      split <;> simp_all
    · intro h0
      apply mem_ext
      intro a i
      rw [testBit_poke]
      split
      · next h =>
        obtain ⟨ha, hi, _⟩ := h
        subst ha hi
        exact h0.symm
      · rfl

/-- Witness for C4: pin 1 of the demo board on a register file of zero bytes,
where its Enable bit is already 0. -/
theorem gpio_free_idempotent_witness :
    reg_bit (fill 0).mem (port_base + ENABLE_REGS + regoff_of demo_board 1)
      (shift_of demo_board 1) = false ∧
    (gpio_free demo_board 1 (fill 0)).mem = (fill 0).mem :=
  ⟨by decide, (gpio_free_idempotent demo_board 1 (fill 0)).2 (by decide)⟩


/-! ## Direction -/

/-- C5: `gpio_direction_output` on a valid pin with shift below 8 returns 0 and
leaves the Output-Value bit of the pin at 1 exactly when the level is nonzero,
its Direction bit at 1 and its Enable bit at 1. -/
theorem gpio_direction_output_bits (b : Board) (gpio : Nat) (value : Int) (s : Machine)
    (hv : gpio_is_valid b gpio = true) (hs : shift_of b gpio < 8) :
    (gpio_direction_output b gpio value s).1 = 0 ∧
    reg_bit (gpio_direction_output b gpio value s).2.mem
        (port_base + OUTVALUE_REGS + regoff_of b gpio) (shift_of b gpio) = decide (value ≠ 0) ∧
    reg_bit (gpio_direction_output b gpio value s).2.mem
        (port_base + DIRECTION_REGS + regoff_of b gpio) (shift_of b gpio) = true ∧
    reg_bit (gpio_direction_output b gpio value s).2.mem
        (port_base + ENABLE_REGS + regoff_of b gpio) (shift_of b gpio) = true := by
  rw [gpio_direction_output_eq b gpio value s hv]
  refine ⟨rfl, ?_, ?_, ?_⟩ <;>
    simp [rmw, looked, reg_bit_poke, hs, ENABLE_REGS, DIRECTION_REGS, OUTVALUE_REGS]

/-- Witness for C5: pin 2 of the demo board driven to level 1 on a register
file of zero bytes. -/
theorem gpio_direction_output_bits_witness :
    gpio_is_valid demo_board 2 = true ∧ shift_of demo_board 2 < 8 ∧
    (gpio_direction_output demo_board 2 1 (fill 0)).1 = 0 ∧
    reg_bit (gpio_direction_output demo_board 2 1 (fill 0)).2.mem
      (port_base + OUTVALUE_REGS + regoff_of demo_board 2) (shift_of demo_board 2) = true :=
  ⟨by decide, by decide,
    (gpio_direction_output_bits demo_board 2 1 (fill 0) (by decide) (by decide)).1,
    (gpio_direction_output_bits demo_board 2 1 (fill 0) (by decide) (by decide)).2.1⟩


/-- C6: in the accesses made by `gpio_direction_output` on a valid pin, the
last access is the write to the Direction byte, a write to the Output-Value
byte lies before it and no write to the Direction byte does; replaying the
accesses made up to that moment gives a register file whose Output-Value bit
(for a shift below 8) already equals the requested level, and replaying all of
them gives the final register file. -/
theorem gpio_direction_output_value_first (b : Board) (gpio : Nat) (value : Int)
    (s : Machine) (hv : gpio_is_valid b gpio = true) :
    ∃ (pre : List Access) (vout vdir : Nat),
      (gpio_direction_output b gpio value s).2.log =
        s.log ++ pre ++ [Access.writeb vdir (port_base + DIRECTION_REGS + regoff_of b gpio)] ∧
      Access.writeb vout (port_base + OUTVALUE_REGS + regoff_of b gpio) ∈ pre ∧
      (∀ x, Access.writeb x (port_base + DIRECTION_REGS + regoff_of b gpio) ∉ pre) ∧
      (shift_of b gpio < 8 →
        reg_bit (replay s.mem pre) (port_base + OUTVALUE_REGS + regoff_of b gpio)
          (shift_of b gpio) = decide (value ≠ 0)) ∧
      replay s.mem
          (pre ++ [Access.writeb vdir (port_base + DIRECTION_REGS + regoff_of b gpio)]) =
        (gpio_direction_output b gpio value s).2.mem := by
  rw [gpio_direction_output_eq b gpio value s hv]
  have hpre : replay s.mem
      (rmw_log s.mem (port_base + ENABLE_REGS + regoff_of b gpio) (shift_of b gpio) true ++
        rmw_log
          (poke s.mem (port_base + ENABLE_REGS + regoff_of b gpio) (shift_of b gpio) true)
          (port_base + OUTVALUE_REGS + regoff_of b gpio) (shift_of b gpio)
          (decide (value ≠ 0)) ++
        [Access.readb (port_base + DIRECTION_REGS + regoff_of b gpio)]) =
      poke (poke s.mem (port_base + ENABLE_REGS + regoff_of b gpio) (shift_of b gpio) true)
        (port_base + OUTVALUE_REGS + regoff_of b gpio) (shift_of b gpio)
        (decide (value ≠ 0)) := by
    rw [replay_append, replay_append, replay_rmw, replay_rmw]
    rfl
  refine ⟨rmw_log s.mem (port_base + ENABLE_REGS + regoff_of b gpio) (shift_of b gpio) true ++
        rmw_log
          (poke s.mem (port_base + ENABLE_REGS + regoff_of b gpio) (shift_of b gpio) true)
          (port_base + OUTVALUE_REGS + regoff_of b gpio) (shift_of b gpio)
          (decide (value ≠ 0)) ++
        [Access.readb (port_base + DIRECTION_REGS + regoff_of b gpio)],
    force_bit (decide (value ≠ 0))
      (poke s.mem (port_base + ENABLE_REGS + regoff_of b gpio) (shift_of b gpio) true
        (port_base + OUTVALUE_REGS + regoff_of b gpio)).val (shift_of b gpio),
    force_bit true
      (poke (poke s.mem (port_base + ENABLE_REGS + regoff_of b gpio) (shift_of b gpio) true)
        (port_base + OUTVALUE_REGS + regoff_of b gpio) (shift_of b gpio)
        (decide (value ≠ 0)) (port_base + DIRECTION_REGS + regoff_of b gpio)).val
      (shift_of b gpio),
    ?_, ?_, ?_, ?_, ?_⟩
  · simp [rmw, looked, rmw_log]
  · simp [rmw_log]
  · intro x
    simp [rmw_log, ENABLE_REGS, OUTVALUE_REGS, DIRECTION_REGS]
  · intro hs
    rw [hpre]
    simp [reg_bit_poke, hs]
  · rw [replay_append, hpre]
    have h := replay_rmw
      (poke (poke s.mem (port_base + ENABLE_REGS + regoff_of b gpio) (shift_of b gpio) true)
        (port_base + OUTVALUE_REGS + regoff_of b gpio) (shift_of b gpio)
        (decide (value ≠ 0)))
      (port_base + DIRECTION_REGS + regoff_of b gpio) (shift_of b gpio) true
    simp only [replay, rmw_log] at h ⊢
    rw [h]
    simp [rmw, looked]

/-- Witness for C6: pin 1 of the demo board driven to level 1 on a register
file of zero bytes; the bit statement holds of the accesses up to the Direction
write. -/
theorem gpio_direction_output_value_first_witness :
    gpio_is_valid demo_board 1 = true ∧
    ∃ (pre : List Access) (vout vdir : Nat),
      (gpio_direction_output demo_board 1 1 (fill 0)).2.log =
        (fill 0).log ++ pre ++
          [Access.writeb vdir (port_base + DIRECTION_REGS + regoff_of demo_board 1)] ∧
      Access.writeb vout (port_base + OUTVALUE_REGS + regoff_of demo_board 1) ∈ pre ∧
      (∀ x, Access.writeb x (port_base + DIRECTION_REGS + regoff_of demo_board 1) ∉ pre) ∧
      (shift_of demo_board 1 < 8 →
        reg_bit (replay (fill 0).mem pre) (port_base + OUTVALUE_REGS + regoff_of demo_board 1)
          (shift_of demo_board 1) = decide ((1 : Int) ≠ 0)) ∧
      replay (fill 0).mem
          (pre ++ [Access.writeb vdir (port_base + DIRECTION_REGS + regoff_of demo_board 1)]) =
        (gpio_direction_output demo_board 1 1 (fill 0)).2.mem :=
  ⟨by decide, gpio_direction_output_value_first demo_board 1 1 (fill 0) (by decide)⟩


/-- C7 as stated fails: on pin 1 of the demo board the writes of
`gpio_direction_output` are not Output-Value, Enable, Direction in that order
(the first write goes to the Enable byte). -/
theorem gpio_direction_output_order_counterexample :
    ¬ ∃ v1 v2 v3 : Nat,
      writes_of (gpio_direction_output demo_board 1 1 (fill 0)).2.log =
        [(port_base + OUTVALUE_REGS + regoff_of demo_board 1, v1),
         (port_base + ENABLE_REGS + regoff_of demo_board 1, v2),
         (port_base + DIRECTION_REGS + regoff_of demo_board 1, v3)] := by
  have h : writes_of (gpio_direction_output demo_board 1 1 (fill 0)).2.log =
      [(0xD8110040, 8), (0xD81100c0, 8), (0xD8110080, 8)] := by decide
  rintro ⟨v1, v2, v3, h2⟩
  rw [h] at h2
  have h3 : (0xD8110040 : Nat) = port_base + OUTVALUE_REGS + regoff_of demo_board 1 := by
    injection h2 with h4 _
    exact (Prod.mk.inj h4).1
  exact absurd h3 (by decide)

/-- C7, amended: on a valid pin `gpio_direction_output` makes exactly three
byte writes, to the Enable byte, then the Output-Value byte, then the Direction
byte; `gpio_direction_input` makes exactly two, to the Enable byte, then the
Direction byte. Each write stores the byte read with the bit of the pin forced. -/
theorem gpio_direction_write_order (b : Board) (gpio : Nat) (value : Int) (s : Machine)
    (hv : gpio_is_valid b gpio = true) :
    writes_of (gpio_direction_output b gpio value s).2.log =
      writes_of s.log ++
        [(port_base + ENABLE_REGS + regoff_of b gpio,
            force_bit true (s.mem (port_base + ENABLE_REGS + regoff_of b gpio)).val
              (shift_of b gpio)),
         (port_base + OUTVALUE_REGS + regoff_of b gpio,
            force_bit (decide (value ≠ 0))
              (s.mem (port_base + OUTVALUE_REGS + regoff_of b gpio)).val (shift_of b gpio)),
         (port_base + DIRECTION_REGS + regoff_of b gpio,
            force_bit true (s.mem (port_base + DIRECTION_REGS + regoff_of b gpio)).val
              (shift_of b gpio))] ∧
    writes_of (gpio_direction_input b gpio s).2.log =
      writes_of s.log ++
        [(port_base + ENABLE_REGS + regoff_of b gpio,
            force_bit true (s.mem (port_base + ENABLE_REGS + regoff_of b gpio)).val
              (shift_of b gpio)),
         (port_base + DIRECTION_REGS + regoff_of b gpio,
            force_bit false (s.mem (port_base + DIRECTION_REGS + regoff_of b gpio)).val
              (shift_of b gpio))] := by
  rw [gpio_direction_output_eq b gpio value s hv, gpio_direction_input_eq b gpio s hv]
  constructor <;>
    simp [rmw, looked, rmw_log, writes_of_append, writes_of, poke, ENABLE_REGS,
      DIRECTION_REGS, OUTVALUE_REGS, Nat.mod_eq_of_lt (force_bit_lt _ _ _)]

/-- Witness for the amended C7: pin 1 of the demo board, level 1, on a register
file of zero bytes. -/
theorem gpio_direction_write_order_witness :
    gpio_is_valid demo_board 1 = true ∧
    writes_of (gpio_direction_input demo_board 1 (fill 0)).2.log =
      writes_of (fill 0).log ++
        [(port_base + ENABLE_REGS + regoff_of demo_board 1,
            force_bit true ((fill 0).mem (port_base + ENABLE_REGS + regoff_of demo_board 1)).val
              (shift_of demo_board 1)),
         (port_base + DIRECTION_REGS + regoff_of demo_board 1,
            force_bit false
              ((fill 0).mem (port_base + DIRECTION_REGS + regoff_of demo_board 1)).val
              (shift_of demo_board 1))] :=
  ⟨by decide, (gpio_direction_write_order demo_board 1 1 (fill 0) (by decide)).2⟩

/-- C8: `gpio_direction_input` on a valid pin with shift below 8 returns 0; its
accesses are those of `gpio_request` (a read and a write of the Enable byte)
followed by a read and a write of the Direction byte; afterwards the Enable bit
of the pin is 1 and its Direction bit is 0, the Output-Value byte of the pin is
unchanged, and so is every bit other than those two. -/
theorem gpio_direction_input_effect (b : Board) (gpio : Nat) (s : Machine)
    (hv : gpio_is_valid b gpio = true) (hs : shift_of b gpio < 8) :
    (gpio_direction_input b gpio s).1 = 0 ∧
    (∃ ven : Nat, (gpio_request b gpio s).2.log =
      s.log ++ [Access.readb (port_base + ENABLE_REGS + regoff_of b gpio),
        Access.writeb ven (port_base + ENABLE_REGS + regoff_of b gpio)]) ∧
    (∃ vdir : Nat, (gpio_direction_input b gpio s).2.log =
      (gpio_request b gpio s).2.log ++
        [Access.readb (port_base + DIRECTION_REGS + regoff_of b gpio),
          Access.writeb vdir (port_base + DIRECTION_REGS + regoff_of b gpio)]) ∧
    reg_bit (gpio_direction_input b gpio s).2.mem
      (port_base + ENABLE_REGS + regoff_of b gpio) (shift_of b gpio) = true ∧
    reg_bit (gpio_direction_input b gpio s).2.mem
      (port_base + DIRECTION_REGS + regoff_of b gpio) (shift_of b gpio) = false ∧
    (gpio_direction_input b gpio s).2.mem (port_base + OUTVALUE_REGS + regoff_of b gpio) =
      s.mem (port_base + OUTVALUE_REGS + regoff_of b gpio) ∧
    (∀ a i, ¬ (a = port_base + ENABLE_REGS + regoff_of b gpio ∧ i = shift_of b gpio) →
      ¬ (a = port_base + DIRECTION_REGS + regoff_of b gpio ∧ i = shift_of b gpio) →
      reg_bit (gpio_direction_input b gpio s).2.mem a i = reg_bit s.mem a i) := by
  rw [gpio_direction_input_eq b gpio s hv, gpio_request_eq b gpio s hv]
  refine ⟨rfl,
    ⟨force_bit true (s.mem (port_base + ENABLE_REGS + regoff_of b gpio)).val (shift_of b gpio),
      ?_⟩,
    ⟨force_bit false
      (poke s.mem (port_base + ENABLE_REGS + regoff_of b gpio) (shift_of b gpio) true
        (port_base + DIRECTION_REGS + regoff_of b gpio)).val (shift_of b gpio), ?_⟩,
    ?_, ?_, ?_, ?_⟩
  · simp [rmw, looked, rmw_log]
  · simp [rmw, looked, rmw_log]
  · simp [rmw, looked, reg_bit_poke, hs, ENABLE_REGS, DIRECTION_REGS]
  · simp [rmw, looked, reg_bit_poke, hs]
  · simp [rmw, looked, poke, ENABLE_REGS, DIRECTION_REGS, OUTVALUE_REGS]
  · intro a i h1 h2
    simp only [rmw, looked, reg_bit_poke]
    rw [if_neg (fun h => h2 ⟨h.1, h.2.1⟩), if_neg (fun h => h1 ⟨h.1, h.2.1⟩)]

/-- Witness for C8: pin 2 of the demo board on a register file of 0xff bytes. -/
theorem gpio_direction_input_effect_witness :
    gpio_is_valid demo_board 2 = true ∧ shift_of demo_board 2 < 8 ∧
    (gpio_direction_input demo_board 2 (fill 255)).1 = 0 ∧
    reg_bit (gpio_direction_input demo_board 2 (fill 255)).2.mem
      (port_base + DIRECTION_REGS + regoff_of demo_board 2) (shift_of demo_board 2) = false :=
  ⟨by decide, by decide,
    (gpio_direction_input_effect demo_board 2 (fill 255) (by decide) (by decide)).1,
    (gpio_direction_input_effect demo_board 2 (fill 255) (by decide) (by decide)).2.2.2.2.1⟩


/-! ## Pull configuration -/

/-- C9: on a valid pin with shift below 8, `gpio_setpull` returns 0 for each of
the three modes. For NONE it reads and writes the pull-enable byte only, leaves
the pull-enable bit at 0 and the pull-control bit at its prior value. For UP it
writes the pull-enable byte and then the pull-control byte and leaves both bits
at 1. For DOWN it does the same and leaves pull-enable at 1 and pull-control at
0. In each case every bit other than the ones named is unchanged. -/
theorem gpio_setpull_effect (b : Board) (gpio : Nat) (s : Machine)
    (hv : gpio_is_valid b gpio = true) (hs : shift_of b gpio < 8) :
    ((gpio_setpull b gpio gpio_pulltype.GPIO_PULL_NONE s).1 = 0 ∧
      (∃ v : Nat, (gpio_setpull b gpio gpio_pulltype.GPIO_PULL_NONE s).2.log =
        s.log ++ [Access.readb (port_base + PULLENABLE_REGS + regoff_of b gpio),
          Access.writeb v (port_base + PULLENABLE_REGS + regoff_of b gpio)]) ∧
      reg_bit (gpio_setpull b gpio gpio_pulltype.GPIO_PULL_NONE s).2.mem
        (port_base + PULLENABLE_REGS + regoff_of b gpio) (shift_of b gpio) = false ∧
      reg_bit (gpio_setpull b gpio gpio_pulltype.GPIO_PULL_NONE s).2.mem
        (port_base + PULLCONTROL_REGS + regoff_of b gpio) (shift_of b gpio) =
        reg_bit s.mem (port_base + PULLCONTROL_REGS + regoff_of b gpio) (shift_of b gpio) ∧
      (∀ a i, ¬ (a = port_base + PULLENABLE_REGS + regoff_of b gpio ∧ i = shift_of b gpio) →
        reg_bit (gpio_setpull b gpio gpio_pulltype.GPIO_PULL_NONE s).2.mem a i =
          reg_bit s.mem a i)) ∧
    ((gpio_setpull b gpio gpio_pulltype.GPIO_PULL_UP s).1 = 0 ∧
      (∃ v1 v2 : Nat, (gpio_setpull b gpio gpio_pulltype.GPIO_PULL_UP s).2.log =
        s.log ++ [Access.readb (port_base + PULLENABLE_REGS + regoff_of b gpio),
          Access.writeb v1 (port_base + PULLENABLE_REGS + regoff_of b gpio),
          Access.readb (port_base + PULLCONTROL_REGS + regoff_of b gpio),
          Access.writeb v2 (port_base + PULLCONTROL_REGS + regoff_of b gpio)]) ∧
      reg_bit (gpio_setpull b gpio gpio_pulltype.GPIO_PULL_UP s).2.mem
        (port_base + PULLENABLE_REGS + regoff_of b gpio) (shift_of b gpio) = true ∧
      reg_bit (gpio_setpull b gpio gpio_pulltype.GPIO_PULL_UP s).2.mem
        (port_base + PULLCONTROL_REGS + regoff_of b gpio) (shift_of b gpio) = true ∧
      (∀ a i, ¬ (a = port_base + PULLENABLE_REGS + regoff_of b gpio ∧ i = shift_of b gpio) →
        ¬ (a = port_base + PULLCONTROL_REGS + regoff_of b gpio ∧ i = shift_of b gpio) →
        reg_bit (gpio_setpull b gpio gpio_pulltype.GPIO_PULL_UP s).2.mem a i =
          reg_bit s.mem a i)) ∧
    ((gpio_setpull b gpio gpio_pulltype.GPIO_PULL_DOWN s).1 = 0 ∧
      (∃ v1 v2 : Nat, (gpio_setpull b gpio gpio_pulltype.GPIO_PULL_DOWN s).2.log =
        s.log ++ [Access.readb (port_base + PULLENABLE_REGS + regoff_of b gpio),
          Access.writeb v1 (port_base + PULLENABLE_REGS + regoff_of b gpio),
          Access.readb (port_base + PULLCONTROL_REGS + regoff_of b gpio),
          Access.writeb v2 (port_base + PULLCONTROL_REGS + regoff_of b gpio)]) ∧
      reg_bit (gpio_setpull b gpio gpio_pulltype.GPIO_PULL_DOWN s).2.mem
        (port_base + PULLENABLE_REGS + regoff_of b gpio) (shift_of b gpio) = true ∧
      reg_bit (gpio_setpull b gpio gpio_pulltype.GPIO_PULL_DOWN s).2.mem
        (port_base + PULLCONTROL_REGS + regoff_of b gpio) (shift_of b gpio) = false ∧
      (∀ a i, ¬ (a = port_base + PULLENABLE_REGS + regoff_of b gpio ∧ i = shift_of b gpio) →
        ¬ (a = port_base + PULLCONTROL_REGS + regoff_of b gpio ∧ i = shift_of b gpio) →
        reg_bit (gpio_setpull b gpio gpio_pulltype.GPIO_PULL_DOWN s).2.mem a i =
          reg_bit s.mem a i)) := by
  rw [gpio_setpull_none_eq b gpio s hv, gpio_setpull_up_eq b gpio s hv,
    gpio_setpull_down_eq b gpio s hv]
  refine ⟨⟨rfl,
      ⟨force_bit false (s.mem (port_base + PULLENABLE_REGS + regoff_of b gpio)).val
        (shift_of b gpio), ?_⟩, ?_, ?_, ?_⟩,
    ⟨rfl,
      ⟨force_bit true (s.mem (port_base + PULLENABLE_REGS + regoff_of b gpio)).val
        (shift_of b gpio),
       force_bit true
        (poke s.mem (port_base + PULLENABLE_REGS + regoff_of b gpio) (shift_of b gpio) true
          (port_base + PULLCONTROL_REGS + regoff_of b gpio)).val (shift_of b gpio), ?_⟩,
      ?_, ?_, ?_⟩,
    ⟨rfl,
      ⟨force_bit true (s.mem (port_base + PULLENABLE_REGS + regoff_of b gpio)).val
        (shift_of b gpio),
       force_bit false
        (poke s.mem (port_base + PULLENABLE_REGS + regoff_of b gpio) (shift_of b gpio) true
          (port_base + PULLCONTROL_REGS + regoff_of b gpio)).val (shift_of b gpio), ?_⟩,
      ?_, ?_, ?_⟩⟩
  · simp [rmw, looked, rmw_log]
  · simp [rmw, looked, reg_bit_poke, hs]
  · simp [rmw, looked, reg_bit_poke, PULLENABLE_REGS, PULLCONTROL_REGS]
  · intro a i h1
    simp only [rmw, looked, reg_bit_poke]
    rw [if_neg (fun h => h1 ⟨h.1, h.2.1⟩)]
  · simp [rmw, looked, rmw_log]
  · simp [rmw, looked, reg_bit_poke, hs, PULLENABLE_REGS, PULLCONTROL_REGS]
  · simp [rmw, looked, reg_bit_poke, hs]
  · intro a i h1 h2
    simp only [rmw, looked, reg_bit_poke]
    rw [if_neg (fun h => h2 ⟨h.1, h.2.1⟩), if_neg (fun h => h1 ⟨h.1, h.2.1⟩)]
  · simp [rmw, looked, rmw_log]
  · simp [rmw, looked, reg_bit_poke, hs, PULLENABLE_REGS, PULLCONTROL_REGS]
  · simp [rmw, looked, reg_bit_poke, hs]
  · intro a i h1 h2
    simp only [rmw, looked, reg_bit_poke]
    rw [if_neg (fun h => h2 ⟨h.1, h.2.1⟩), if_neg (fun h => h1 ⟨h.1, h.2.1⟩)]

/-- Witness for C9: pin 1 of the demo board on a register file of 0xff bytes;
after NONE the pull-enable bit is 0 and the pull-control bit still 1. -/
theorem gpio_setpull_effect_witness :
    gpio_is_valid demo_board 1 = true ∧ shift_of demo_board 1 < 8 ∧
    reg_bit (gpio_setpull demo_board 1 gpio_pulltype.GPIO_PULL_NONE (fill 255)).2.mem
      (port_base + PULLENABLE_REGS + regoff_of demo_board 1) (shift_of demo_board 1) = false ∧
    reg_bit (gpio_setpull demo_board 1 gpio_pulltype.GPIO_PULL_NONE (fill 255)).2.mem
      (port_base + PULLCONTROL_REGS + regoff_of demo_board 1) (shift_of demo_board 1) =
      reg_bit (fill 255).mem (port_base + PULLCONTROL_REGS + regoff_of demo_board 1)
        (shift_of demo_board 1) :=
  ⟨by decide, by decide,
    (gpio_setpull_effect demo_board 1 (fill 255) (by decide) (by decide)).1.2.2.1,
    (gpio_setpull_effect demo_board 1 (fill 255) (by decide) (by decide)).1.2.2.2.1⟩


/-! ## Invalid pins -/

/-- C10: for a pin that fails `gpio_is_valid`, `gpio_request`, `gpio_get_value`,
`gpio_direction_input`, `gpio_direction_output` and `gpio_setpull` return
`-EINVAL`, and they as well as `gpio_free` and `gpio_set_value` append nothing
to the access log (no read, no write) and leave the register file unchanged. -/
theorem invalid_pin_no_access (b : Board) (gpio : Nat) (value : Int) (pull : gpio_pulltype)
    (s : Machine) (hv : gpio_is_valid b gpio = false) :
    ((gpio_request b gpio s).1 = -EINVAL ∧ (gpio_request b gpio s).2.log = s.log ∧
      (gpio_request b gpio s).2.mem = s.mem) ∧
    ((gpio_get_value b gpio s).1 = -EINVAL ∧ (gpio_get_value b gpio s).2.log = s.log ∧
      (gpio_get_value b gpio s).2.mem = s.mem) ∧
    ((gpio_direction_input b gpio s).1 = -EINVAL ∧
      (gpio_direction_input b gpio s).2.log = s.log ∧
      (gpio_direction_input b gpio s).2.mem = s.mem) ∧
    ((gpio_direction_output b gpio value s).1 = -EINVAL ∧
      (gpio_direction_output b gpio value s).2.log = s.log ∧
      (gpio_direction_output b gpio value s).2.mem = s.mem) ∧
    ((gpio_setpull b gpio pull s).1 = -EINVAL ∧ (gpio_setpull b gpio pull s).2.log = s.log ∧
      (gpio_setpull b gpio pull s).2.mem = s.mem) ∧
    ((gpio_free b gpio s).log = s.log ∧ (gpio_free b gpio s).mem = s.mem) ∧
    ((gpio_set_value b gpio value s).log = s.log ∧
      (gpio_set_value b gpio value s).mem = s.mem) := by
  rw [gpio_request_invalid b gpio s hv, gpio_get_value_invalid b gpio s hv,
    gpio_free_invalid b gpio s hv, gpio_set_value_invalid b gpio value s hv]
  simp [gpio_direction_input, gpio_direction_output, gpio_setpull, hv, looked]

/-- Witness for C10: pin number `(unsigned)-1` on the three-pin demo board;
`gpio_request` returns `-EINVAL` and logs no access. -/
theorem invalid_pin_no_access_witness :
    gpio_is_valid demo_board 4294967295 = false ∧
    (gpio_request demo_board 4294967295 (fill 0)).1 = -EINVAL ∧
    (gpio_request demo_board 4294967295 (fill 0)).2.log = (fill 0).log :=
  ⟨by decide,
    (invalid_pin_no_access demo_board 4294967295 1 gpio_pulltype.GPIO_PULL_UP (fill 0)
      (by decide)).1.1,
    (invalid_pin_no_access demo_board 4294967295 1 gpio_pulltype.GPIO_PULL_UP (fill 0)
      (by decide)).1.2.1⟩

/-- C11: for a pull mode other than NONE, UP and DOWN, `gpio_setpull` on a valid
pin returns `-EINVAL` and hands back the machine it was given: register file,
access log and table lookups are all as before. -/
theorem gpio_setpull_unknown_mode (b : Board) (gpio : Nat) (pull : gpio_pulltype)
    (s : Machine) (hv : gpio_is_valid b gpio = true)
    (h1 : pull ≠ gpio_pulltype.GPIO_PULL_NONE) (h2 : pull ≠ gpio_pulltype.GPIO_PULL_UP)
    (h3 : pull ≠ gpio_pulltype.GPIO_PULL_DOWN) :
    gpio_setpull b gpio pull s = (-EINVAL, s) := by
  cases pull with
  | GPIO_PULL_NONE => exact absurd rfl h1
  | GPIO_PULL_UP => exact absurd rfl h2
  | GPIO_PULL_DOWN => exact absurd rfl h3
  | other code => simp [gpio_setpull, hv]

/-- Witness for C11: mode value 7 on pin 1 of the demo board. -/
theorem gpio_setpull_unknown_mode_witness :
    gpio_is_valid demo_board 1 = true ∧
    (gpio_setpull demo_board 1 (gpio_pulltype.other 7) (fill 255)).1 = -EINVAL ∧
    (gpio_setpull demo_board 1 (gpio_pulltype.other 7) (fill 255)).2.log = [] :=
  ⟨by decide,
    congrArg Prod.fst (gpio_setpull_unknown_mode demo_board 1 (gpio_pulltype.other 7)
      (fill 255) (by decide) (by decide) (by decide) (by decide)),
    congrArg (fun r => r.2.log) (gpio_setpull_unknown_mode demo_board 1
      (gpio_pulltype.other 7) (fill 255) (by decide) (by decide) (by decide) (by decide))⟩

/-- C12 fails on the code: for pin 3 of the three-pin demo board, which fails
`gpio_is_valid`, `gpio_request`, `gpio_free`, `gpio_get_value` and
`gpio_set_value` have each evaluated `wmt_gpios[3]` twice (for `regoff` and for
`shift`) by the time they return, whereas `gpio_direction_input`,
`gpio_direction_output` and `gpio_setpull` have not indexed the table at all. -/
theorem table_indexed_before_validity_check :
    gpio_is_valid demo_board 3 = false ∧
    (gpio_request demo_board 3 (fill 0)).2.lookups = [3, 3] ∧
    (gpio_free demo_board 3 (fill 0)).lookups = [3, 3] ∧
    (gpio_get_value demo_board 3 (fill 0)).2.lookups = [3, 3] ∧
    (gpio_set_value demo_board 3 1 (fill 0)).lookups = [3, 3] ∧
    (gpio_direction_input demo_board 3 (fill 0)).2.lookups = [] ∧
    (gpio_direction_output demo_board 3 1 (fill 0)).2.lookups = [] ∧
    (gpio_setpull demo_board 3 gpio_pulltype.GPIO_PULL_UP (fill 0)).2.lookups = [] := by
  decide

/-! ## Reading a pin -/

theorem gpio_get_value_eq (b : Board) (gpio : Nat) (s : Machine)
    (hv : gpio_is_valid b gpio = true) :
    gpio_get_value b gpio s =
      (((((s.mem (port_base + INVALUE_REGS + regoff_of b gpio)).val >>> shift_of b gpio)
          &&& 1 : Nat) : Int),
        { looked gpio s with
          log := s.log ++ [Access.readb (port_base + INVALUE_REGS + regoff_of b gpio)] }) := by
  simp [gpio_get_value, wmt_gpios_at, __raw_readb, hv, regoff_of, shift_of, looked]

theorem shift_and_one (v i : Nat) : (v >>> i) &&& 1 = if v.testBit i then 1 else 0 := by
  rw [Nat.and_one_is_mod, Nat.shiftRight_eq_div_pow, ← Nat.toNat_testBit]
  cases v.testBit i <;> rfl

/-- C13: for a valid pin, `gpio_get_value` returns `(byte >> shift) & 1` of the
Input-Value byte, makes that one read and no write, and leaves the register file
unchanged. If moreover the shift is below 8 and the Input-Value byte read is
the Output-Value byte left by `gpio_set_value` with value `v` (loopback), the
result is 1 when `v` is nonzero and 0 when `v` is zero. -/
theorem gpio_set_then_get_loopback (b : Board) (gpio : Nat) (value : Int)
    (s s2 : Machine) (hv : gpio_is_valid b gpio = true) (hs : shift_of b gpio < 8)
    (hloop : s2.mem (port_base + INVALUE_REGS + regoff_of b gpio) =
      (gpio_set_value b gpio value s).mem (port_base + OUTVALUE_REGS + regoff_of b gpio)) :
    (gpio_get_value b gpio s2).1 = (if value ≠ 0 then 1 else 0) ∧
    (gpio_get_value b gpio s2).1 =
      ((((s2.mem (port_base + INVALUE_REGS + regoff_of b gpio)).val >>> shift_of b gpio)
        &&& 1 : Nat) : Int) ∧
    (gpio_get_value b gpio s2).2.mem = s2.mem ∧
    (gpio_get_value b gpio s2).2.log =
      s2.log ++ [Access.readb (port_base + INVALUE_REGS + regoff_of b gpio)] ∧
    writes_of (gpio_get_value b gpio s2).2.log = writes_of s2.log := by
  rw [gpio_get_value_eq b gpio s2 hv]
  refine ⟨?_, rfl, rfl, rfl, ?_⟩
  · have hbit : (s2.mem (port_base + INVALUE_REGS + regoff_of b gpio)).val.testBit
        (shift_of b gpio) = decide (value ≠ 0) := by
      rw [hloop, gpio_set_value_eq b gpio value s hv]
      have h := reg_bit_poke s.mem (port_base + OUTVALUE_REGS + regoff_of b gpio)
        (shift_of b gpio) (decide (value ≠ 0)) (port_base + OUTVALUE_REGS + regoff_of b gpio)
        (shift_of b gpio)
      rw [if_pos ⟨rfl, rfl, hs⟩] at h
      exact h
    simp only [shift_and_one, hbit]
    by_cases h : value = 0 <;> simp [h]
  · simp [writes_of_append, writes_of, looked]

/-- Witness for C13: pin 1 of the demo board (bit 3); writing 1 on a register
file of zero bytes leaves 8 in the Output-Value byte, and a register file whose
Input-Value byte is 8 reads back 1. -/
theorem gpio_set_then_get_loopback_witness :
    gpio_is_valid demo_board 1 = true ∧ shift_of demo_board 1 < 8 ∧
    (fill 8).mem (port_base + INVALUE_REGS + regoff_of demo_board 1) =
      (gpio_set_value demo_board 1 1 (fill 0)).mem
        (port_base + OUTVALUE_REGS + regoff_of demo_board 1) ∧
    (gpio_get_value demo_board 1 (fill 8)).1 = 1 :=
  ⟨by decide, by decide, by decide,
    (gpio_set_then_get_loopback demo_board 1 1 (fill 0) (fill 8) (by decide) (by decide)
      (by decide)).1⟩

/-! ## The environment parser: scanning -/

theorem scan_digits_append (base : Nat) (ds t : List Char) (acc : Nat)
    (hds : ds.all (is_digit_of base) = true)
    (ht : ∀ c t2, t = c :: t2 → is_digit_of base c = false) :
    scan_digits base acc (ds ++ t) =
      (ds.foldl (fun acc c => acc * base + (digit_value c).getD 0) acc, t) := by
  induction ds generalizing acc with
  | nil =>
    cases t with
    | nil => rfl
    | cons c t2 => simp [scan_digits, ht c t2 rfl]
  | cons d ds ih =>
    simp only [List.all_cons, Bool.and_eq_true] at hds
    simp [scan_digits, hds.1, ih _ hds.2]

theorem leaves_literal_head (lit t : List Char) (h : leaves_literal lit t = true)
    (c : Char) (t2 : List Char) (ht : t = c :: t2) : is_digit_of (radix_of lit) c = false := by
  subst ht
  simp only [leaves_literal, Bool.and_eq_true, Bool.not_eq_true'] at h
  exact h.1

theorem scan_loop_first_only (p : List Char) (h : (simple_strtoul p).2.length ≤ 1) :
    scan_loop idx_max p (0, 0) 0 = ((to_long (simple_strtoul p).1, 0), 1) := by
  simp only [idx_max, scan_loop]
  match hr : (simple_strtoul p).2 with
  | [] => simp
  | [_] => simp
  | _ :: _ :: _ => rw [hr] at h; simp at h

theorem scan_loop_both (p : List Char) (h : 2 ≤ (simple_strtoul p).2.length) :
    scan_loop idx_max p (0, 0) 0 =
      ((to_long (simple_strtoul p).1,
        to_long (simple_strtoul (simple_strtoul p).2.tail).1), 2) := by
  simp only [idx_max, scan_loop]
  match hr : (simple_strtoul p).2 with
  | [] => rw [hr] at h; simp at h
  | [_] => rw [hr] at h; simp at h
  | _ :: c :: rest =>
    simp only [Nat.lt_irrefl, if_false, List.tail_cons, Nat.zero_lt_succ, if_true,
      Nat.zero_add, Nat.one_lt_ofNat, Nat.succ_ne_zero, Nat.reduceAdd]
    match (simple_strtoul (c :: rest)).2 with
    | [] => simp
    | [_] => simp
    | _ :: _ :: _ => simp

theorem parse_gpio_env_absent (b : Board) (getenv : List Char → Option (List Char))
    (name : List Char) (p_env : GPIO_ENV) (h : getenv name = none) :
    parse_gpio_env b getenv name p_env = ⟨-1, p_env, none⟩ := by
  simp [parse_gpio_env, h]

theorem parse_gpio_env_one_scan (b : Board) (getenv : List Char → Option (List Char))
    (name : List Char) (p_env : GPIO_ENV) (v : List Char) (h : getenv name = some v)
    (h1 : (simple_strtoul v).2.length ≤ 1) :
    parse_gpio_env b getenv name p_env =
      ⟨-1, ⟨to_long (simple_strtoul v).1, 0⟩, some parse_message.wrong_env_num⟩ := by
  simp only [parse_gpio_env, h]
  rw [scan_loop_first_only v h1]
  simp

theorem parse_gpio_env_two_scans (b : Board) (getenv : List Char → Option (List Char))
    (name : List Char) (p_env : GPIO_ENV) (v : List Char) (h : getenv name = some v)
    (h2 : 2 ≤ (simple_strtoul v).2.length) :
    parse_gpio_env b getenv name p_env =
      if gpio_is_valid_signed b (to_long (simple_strtoul v).1) = true then
        ⟨0, ⟨to_long (simple_strtoul v).1,
          to_long (simple_strtoul (simple_strtoul v).2.tail).1⟩, none⟩
      else
        ⟨-1, ⟨to_long (simple_strtoul v).1,
          to_long (simple_strtoul (simple_strtoul v).2.tail).1⟩,
          some parse_message.wrong_gpio_no⟩ := by
  simp only [parse_gpio_env, h]
  rw [scan_loop_both v h2]
  simp

theorem simple_strtoul_literal (lit t : List Char) (a : Nat)
    (hlit : literal_value lit = some a) (ht : leaves_literal lit t = true) :
    simple_strtoul (lit ++ t) = (a, t) := by
  have hhead := leaves_literal_head lit t ht
  cases lit with
  | nil => simp [literal_value] at hlit
  | cons c0 rest =>
    by_cases h0 : c0 = '0'
    · subst h0
      cases rest with
      | nil =>
        simp only [literal_value, if_true, Option.some.injEq] at hlit
        subst hlit
        cases t with
        | nil => simp [simple_strtoul, scan_digits]
        | cons c t2 =>
          have hc : is_digit_of 8 c = false := by
            have := hhead c t2 rfl
            simpa [radix_of] using this
          simp only [leaves_literal, Bool.and_eq_true, Bool.not_eq_true',
            Bool.and_eq_false_imp, decide_eq_true_eq] at ht
          cases t2 with
          | nil => simp [simple_strtoul, scan_digits, hc]
          | cons c2 t3 =>
            by_cases hx : c = 'x'
            · have h16 : is_digit_of 16 c2 = false := ht.2 ⟨trivial, hx⟩
              simp [simple_strtoul, scan_digits, hc, h16]
            · simp [simple_strtoul, scan_digits, hc, hx]
      | cons c1 ds =>
        by_cases hx : c1 = 'x'
        · subst hx
          simp only [literal_value, if_true] at hlit
          split at hlit
          · next hds =>
            simp only [Option.some.injEq] at hlit
            subst hlit
            cases ds with
            | nil => exact absurd rfl hds.1
            | cons d ds2 =>
              have hd : is_digit_of 16 d = true := by
                have := hds.2
                simp only [List.all_cons, Bool.and_eq_true] at this
                exact this.1
              have hsc := scan_digits_append 16 (d :: ds2) t 0 hds.2
                (fun c t2 e => by simpa [radix_of] using hhead c t2 e)
              simp only [simple_strtoul, List.cons_append, if_true, hd, and_self]
              exact hsc
          · simp at hlit
        · simp only [literal_value, if_true, hx, if_false] at hlit
          split at hlit
          · next hds =>
            simp only [Option.some.injEq] at hlit
            subst hlit
            have hsc := scan_digits_append 8 (c1 :: ds) t 0 hds
              (fun c t2 e => by simpa [radix_of, hx] using hhead c t2 e)
            cases hdt : ds ++ t with
            | nil =>
              simp only [simple_strtoul, List.cons_append, if_true, hdt]
              simpa [hdt, digits_value] using hsc
            | cons c2 r2 =>
              simp only [simple_strtoul, List.cons_append, if_true, hdt, hx, false_and,
                if_false]
              simpa [hdt, digits_value] using hsc
          · simp at hlit
    · simp only [literal_value, h0, if_false] at hlit
      split at hlit
      · next hds =>
        simp only [Option.some.injEq] at hlit
        subst hlit
        have hsc := scan_digits_append 10 (c0 :: rest) t 0 hds
          (fun c t2 e => by simpa [radix_of, h0] using hhead c t2 e)
        simp only [simple_strtoul, List.cons_append, h0, if_false]
        exact hsc
      · simp at hlit

theorem literal_value_ne_nil (lit : List Char) (a : Nat) (h : literal_value lit = some a) :
    lit ≠ [] := by
  intro e
  subst e
  simp [literal_value] at h

theorem to_long_small (n : Nat) (h : n < 2 ^ 31) : to_long n = (n : Int) := by
  have h1 : n % 2 ^ 32 = n := Nat.mod_eq_of_lt (by omega)
  unfold to_long
  rw [h1, if_pos h]

theorem gpio_is_valid_signed_nat (b : Board) (n : Nat) :
    gpio_is_valid_signed b (n : Int) = gpio_is_valid b n := by
  simp [gpio_is_valid_signed]

theorem parse_gpio_env_separated (b : Board) (getenv : List Char → Option (List Char))
    (name : List Char) (p_env : GPIO_ENV) (A B t : List Char) (sep : Char) (a v : Nat)
    (hA : literal_value A = some a) (hB : literal_value B = some v)
    (hsep : leaves_literal A (sep :: (B ++ t)) = true) (ht : leaves_literal B t = true)
    (henv : getenv name = some (A ++ sep :: (B ++ t))) :
    parse_gpio_env b getenv name p_env =
      if gpio_is_valid_signed b (to_long a) = true then
        ⟨0, ⟨to_long a, to_long v⟩, none⟩
      else ⟨-1, ⟨to_long a, to_long v⟩, some parse_message.wrong_gpio_no⟩ := by
  have h1 := simple_strtoul_literal A (sep :: (B ++ t)) a hA hsep
  have h2 := simple_strtoul_literal B t v hB ht
  have hB0 := literal_value_ne_nil B v hB
  have hlen : 2 ≤ (simple_strtoul (A ++ sep :: (B ++ t))).2.length := by
    rw [h1]
    cases B with
    | nil => exact absurd rfl hB0
    | cons c B2 => simp
  rw [parse_gpio_env_two_scans b getenv name p_env _ henv hlen, h1]
  simp only [List.tail_cons, h2]

theorem leaves_literal_colon (lit t : List Char) : leaves_literal lit (':' :: t) = true := by
  have h : ∀ n, is_digit_of n ':' = false := fun n => by
    simp [is_digit_of, digit_value]
  simp [leaves_literal, h]

/-! ## The environment parser: the claims -/

/-- C14 as stated fails: for the value `18446744073709551616:0` (both fields are
decimal literals, the first being 2^64, which no board of 32 pins has as a pin)
the record receives pin 0 instead of the value of the first literal, and the
call returns 0 instead of -1. -/
theorem parse_gpio_env_overflow_counterexample :
    literal_value ['1', '8', '4', '4', '6', '7', '4', '4', '0', '7', '3', '7', '0', '9', '5',
      '5', '1', '6', '1', '6'] = some 18446744073709551616 ∧
    literal_value ['0'] = some 0 ∧
    gpio_is_valid wide_board 18446744073709551616 = false ∧
    parse_gpio_env wide_board
      (fun _ => some (['1', '8', '4', '4', '6', '7', '4', '4', '0', '7', '3', '7', '0', '9',
        '5', '5', '1', '6', '1', '6'] ++ ':' :: ['0'])) [] ⟨9, 9⟩ = ⟨0, ⟨0, 0⟩, none⟩ := by
  decide

/-- C14, amended: when the value is `A:B` followed by text that leaves `B` as it
is, with `A` and `B` unsigned integer literals (hex after `0x`, octal after a
leading `0`, else decimal) whose values are below 2^31, `parse_gpio_env` stores
the value of `A` as `gpiono` and the value of `B` as `active`, and returns 0
when the value of `A` satisfies `gpio_is_valid` and -1 when it does not. -/
theorem parse_gpio_env_literals (b : Board) (getenv : List Char → Option (List Char))
    (name : List Char) (p_env : GPIO_ENV) (A B t : List Char) (a v : Nat)
    (hA : literal_value A = some a) (hB : literal_value B = some v)
    (ht : leaves_literal B t = true) (ha : a < 2 ^ 31) (hv : v < 2 ^ 31)
    (henv : getenv name = some (A ++ ':' :: (B ++ t))) :
    (parse_gpio_env b getenv name p_env).env = ⟨(a : Int), (v : Int)⟩ ∧
    (parse_gpio_env b getenv name p_env).ret = (if gpio_is_valid b a = true then 0 else -1) := by
  rw [parse_gpio_env_separated b getenv name p_env A B t ':' a v hA hB
    (leaves_literal_colon A _) ht henv, to_long_small a ha, to_long_small v hv,
    gpio_is_valid_signed_nat]
  cases gpio_is_valid b a <;> simp

/-- Witness for the amended C14 on the board of 32 pins: `7:0` gives pin 7,
active 0 and returns 0; `0x10:1` gives pin 16, active 1; `999999:0` returns -1. -/
theorem parse_gpio_env_literals_witness :
    ((parse_gpio_env wide_board (fun _ => some (['7'] ++ ':' :: (['0'] ++ []))) []
        ⟨0, 0⟩).env = ⟨((7 : Nat) : Int), ((0 : Nat) : Int)⟩ ∧
      (parse_gpio_env wide_board (fun _ => some (['7'] ++ ':' :: (['0'] ++ []))) []
        ⟨0, 0⟩).ret = (if gpio_is_valid wide_board 7 = true then 0 else -1)) ∧
    ((parse_gpio_env wide_board
        (fun _ => some (['0', 'x', '1', '0'] ++ ':' :: (['1'] ++ []))) []
        ⟨0, 0⟩).env = ⟨((16 : Nat) : Int), ((1 : Nat) : Int)⟩ ∧
      (parse_gpio_env wide_board
        (fun _ => some (['0', 'x', '1', '0'] ++ ':' :: (['1'] ++ []))) []
        ⟨0, 0⟩).ret = (if gpio_is_valid wide_board 16 = true then 0 else -1)) ∧
    ((parse_gpio_env wide_board
        (fun _ => some (['9', '9', '9', '9', '9', '9'] ++ ':' :: (['0'] ++ []))) []
        ⟨0, 0⟩).env = ⟨((999999 : Nat) : Int), ((0 : Nat) : Int)⟩ ∧
      (parse_gpio_env wide_board
        (fun _ => some (['9', '9', '9', '9', '9', '9'] ++ ':' :: (['0'] ++ []))) []
        ⟨0, 0⟩).ret = (if gpio_is_valid wide_board 999999 = true then 0 else -1)) :=
  ⟨parse_gpio_env_literals wide_board _ [] ⟨0, 0⟩ ['7'] ['0'] [] 7 0
      (by decide) (by decide) (by decide) (by decide) (by decide) rfl,
    parse_gpio_env_literals wide_board _ [] ⟨0, 0⟩ ['0', 'x', '1', '0'] ['1'] [] 16 1
      (by decide) (by decide) (by decide) (by decide) (by decide) rfl,
    parse_gpio_env_literals wide_board _ [] ⟨0, 0⟩ ['9', '9', '9', '9', '9', '9'] ['0'] []
      999999 0 (by decide) (by decide) (by decide) (by decide) (by decide) rfl⟩

/-- C15 as stated fails: on the demo board the values `:5` and `::`, in which
the first scan finds no digit at all, are accepted: the call returns 0 with pin
0 (and active 5, respectively 0). -/
theorem parse_gpio_env_empty_field_counterexample :
    simple_strtoul [':', '5'] = (0, [':', '5']) ∧
    parse_gpio_env demo_board (fun _ => some [':', '5']) [] ⟨9, 9⟩ = ⟨0, ⟨0, 5⟩, none⟩ ∧
    parse_gpio_env demo_board (fun _ => some [':', ':']) [] ⟨9, 9⟩ = ⟨0, ⟨0, 0⟩, none⟩ := by
  decide

/-- C15, amended: when the first scan stops at the end of the value or leaves a
single character, so that no second scan is made, `parse_gpio_env` returns -1
(printing the wrong-number diagnostic) whatever the board and the value
scanned. -/
theorem parse_gpio_env_single_scan (b : Board) (getenv : List Char → Option (List Char))
    (name : List Char) (p_env : GPIO_ENV) (v : List Char) (h : getenv name = some v)
    (h1 : (simple_strtoul v).2.length ≤ 1) :
    (parse_gpio_env b getenv name p_env).ret = -1 ∧
    (parse_gpio_env b getenv name p_env).printed = some parse_message.wrong_env_num := by
  rw [parse_gpio_env_one_scan b getenv name p_env v h h1]
  exact ⟨rfl, rfl⟩

/-- Witness for the amended C15 on the board of 32 pins, where pin 7 is valid:
the values `7`, `7:` and the empty value all give -1. -/
theorem parse_gpio_env_single_scan_witness :
    gpio_is_valid wide_board 7 = true ∧
    (parse_gpio_env wide_board (fun _ => some ['7']) [] ⟨0, 0⟩).ret = -1 ∧
    (parse_gpio_env wide_board (fun _ => some ['7', ':']) [] ⟨0, 0⟩).ret = -1 ∧
    (parse_gpio_env wide_board (fun _ => some []) [] ⟨0, 0⟩).ret = -1 :=
  ⟨by decide,
    (parse_gpio_env_single_scan wide_board _ [] ⟨0, 0⟩ ['7'] rfl (by decide)).1,
    (parse_gpio_env_single_scan wide_board _ [] ⟨0, 0⟩ ['7', ':'] rfl (by decide)).1,
    (parse_gpio_env_single_scan wide_board _ [] ⟨0, 0⟩ [] rfl (by decide)).1⟩

/-- C16 as stated fails: on the board of 32 pins the values `7;0`, `7x0` and
`7 0` are accepted like `7:0`: the call returns 0 with pin 7 and active 0. -/
theorem parse_gpio_env_separator_counterexample :
    parse_gpio_env wide_board (fun _ => some ['7', ';', '0']) [] ⟨9, 9⟩ = ⟨0, ⟨7, 0⟩, none⟩ ∧
    parse_gpio_env wide_board (fun _ => some ['7', 'x', '0']) [] ⟨9, 9⟩ = ⟨0, ⟨7, 0⟩, none⟩ ∧
    parse_gpio_env wide_board (fun _ => some ['7', ' ', '0']) [] ⟨9, 9⟩ = ⟨0, ⟨7, 0⟩, none⟩ := by
  decide

/-- C16, amended: `parse_gpio_env` skips the one character after the first
integer without looking at it. For literals `A` and `B` and any character that
leaves `A` as it is, the value with that character between `A` and `B` gives
the same outcome as the value with a colon there. -/
theorem parse_gpio_env_any_separator (b : Board)
    (getenv getenv2 : List Char → Option (List Char)) (name : List Char) (p_env : GPIO_ENV)
    (A B t : List Char) (sep : Char) (a v : Nat)
    (hA : literal_value A = some a) (hB : literal_value B = some v)
    (hsep : leaves_literal A (sep :: (B ++ t)) = true) (ht : leaves_literal B t = true)
    (henv : getenv name = some (A ++ sep :: (B ++ t)))
    (henv2 : getenv2 name = some (A ++ ':' :: (B ++ t))) :
    parse_gpio_env b getenv name p_env = parse_gpio_env b getenv2 name p_env := by
  rw [parse_gpio_env_separated b getenv name p_env A B t sep a v hA hB hsep ht henv,
    parse_gpio_env_separated b getenv2 name p_env A B t ':' a v hA hB
      (leaves_literal_colon A _) ht henv2]

/-- Witness for the amended C16: `7;0` against `7:0` on the board of 32 pins. -/
theorem parse_gpio_env_any_separator_witness :
    parse_gpio_env wide_board (fun _ => some (['7'] ++ ';' :: (['0'] ++ []))) [] ⟨9, 9⟩ =
      parse_gpio_env wide_board (fun _ => some (['7'] ++ ':' :: (['0'] ++ []))) [] ⟨9, 9⟩ :=
  parse_gpio_env_any_separator wide_board _ _ [] ⟨9, 9⟩ ['7'] ['0'] [] ';' 7 0
    (by decide) (by decide) (by decide) (by decide) rfl rfl

/-- C17 as stated fails: with the record holding pin 7 and active 0 beforehand,
an absent variable and the malformed value `7` give the same return value and
leave the same record. -/
theorem parse_gpio_env_absent_counterexample :
    (parse_gpio_env demo_board (fun _ => none) [] ⟨7, 0⟩).ret =
      (parse_gpio_env demo_board (fun _ => some ['7']) [] ⟨7, 0⟩).ret ∧
    (parse_gpio_env demo_board (fun _ => none) [] ⟨7, 0⟩).env =
      (parse_gpio_env demo_board (fun _ => some ['7']) [] ⟨7, 0⟩).env := by
  decide

/-- C17, amended: `parse_gpio_env` returns 0 or -1 and nothing else. When the
variable is absent it returns -1, leaves the record alone and prints nothing;
-1 is also what a value with a single scan gives, with the wrong-number
diagnostic printed. It returns 0 only when the variable exists, two scans were
made and the first value scanned is a valid pin. -/
theorem parse_gpio_env_return_values (b : Board) (getenv : List Char → Option (List Char))
    (name : List Char) (p_env : GPIO_ENV) :
    ((parse_gpio_env b getenv name p_env).ret = 0 ∨
      (parse_gpio_env b getenv name p_env).ret = -1) ∧
    (getenv name = none →
      (parse_gpio_env b getenv name p_env).ret = -1 ∧
      (parse_gpio_env b getenv name p_env).env = p_env ∧
      (parse_gpio_env b getenv name p_env).printed = none) ∧
    (∀ v, getenv name = some v → (simple_strtoul v).2.length ≤ 1 →
      (parse_gpio_env b getenv name p_env).ret = -1 ∧
      (parse_gpio_env b getenv name p_env).printed = some parse_message.wrong_env_num) ∧
    ((parse_gpio_env b getenv name p_env).ret = 0 →
      ∃ v, getenv name = some v ∧ 2 ≤ (simple_strtoul v).2.length ∧
        gpio_is_valid_signed b (to_long (simple_strtoul v).1) = true) := by
  cases henv : getenv name with
  | none =>
    rw [parse_gpio_env_absent b getenv name p_env henv]
    simp
  | some v =>
    by_cases h1 : (simple_strtoul v).2.length ≤ 1
    · rw [parse_gpio_env_one_scan b getenv name p_env v henv h1]
      simp [h1]
    · have h2 : 2 ≤ (simple_strtoul v).2.length := by omega
      rw [parse_gpio_env_two_scans b getenv name p_env v henv h2]
      cases hval : gpio_is_valid_signed b (to_long (simple_strtoul v).1) with
      | false =>
        have h3 : 1 < (simple_strtoul v).2.length := by omega
        simp [h1, h3]
      | true =>
        simp only [if_true, true_or, true_and]
        refine ⟨fun h => absurd h (by simp), fun v2 hv2 hle => ?_, fun _ => ?_⟩
        · cases hv2
          exact absurd hle h1
        · exact ⟨v, rfl, h2, hval⟩

/-- Witness for the amended C17: an absent variable on the demo board. -/
theorem parse_gpio_env_return_values_witness :
    (parse_gpio_env demo_board (fun _ => none) [] ⟨3, 1⟩).ret = -1 ∧
    (parse_gpio_env demo_board (fun _ => none) [] ⟨3, 1⟩).env = ⟨3, 1⟩ ∧
    (parse_gpio_env demo_board (fun _ => none) [] ⟨3, 1⟩).printed = none :=
  (parse_gpio_env_return_values demo_board (fun _ => none) [] ⟨3, 1⟩).2.1 rfl

/-- C18: when the variable is absent the record is left as it was; when it
exists the record is overwritten, whatever is then returned, with the first
value scanned as `gpiono` and the second value scanned (0 when no second scan
was made) as `active`, each as the `long` it was stored in. -/
theorem parse_gpio_env_overwrites_record (b : Board)
    (getenv : List Char → Option (List Char)) (name : List Char) (p_env : GPIO_ENV) :
    (getenv name = none → (parse_gpio_env b getenv name p_env).env = p_env) ∧
    (∀ v, getenv name = some v →
      (parse_gpio_env b getenv name p_env).env =
        ⟨to_long (simple_strtoul v).1,
          if 2 ≤ (simple_strtoul v).2.length then
            to_long (simple_strtoul (simple_strtoul v).2.tail).1
          else 0⟩) := by
  constructor
  · intro henv
    rw [parse_gpio_env_absent b getenv name p_env henv]
  · intro v henv
    by_cases h1 : (simple_strtoul v).2.length ≤ 1
    · have h2 : ¬ 2 ≤ (simple_strtoul v).2.length := by omega
      rw [parse_gpio_env_one_scan b getenv name p_env v henv h1, if_neg h2]
    · have h2 : 2 ≤ (simple_strtoul v).2.length := by omega
      rw [parse_gpio_env_two_scans b getenv name p_env v henv h2, if_pos h2]
      split <;> rfl

/-- Witness for C18 on the board of 32 pins with the record holding 100 and 100
beforehand: the malformed value `7` leaves pin 7, active 0 in the record and
the out-of-range value `999:1` leaves pin 999, active 1, both returning -1. -/
theorem parse_gpio_env_overwrites_record_witness :
    ((parse_gpio_env wide_board (fun _ => some ['7']) [] ⟨100, 100⟩).ret = -1 ∧
      (parse_gpio_env wide_board (fun _ => some ['7']) [] ⟨100, 100⟩).env = ⟨7, 0⟩) ∧
    ((parse_gpio_env wide_board (fun _ => some ['9', '9', '9', ':', '1']) []
        ⟨100, 100⟩).ret = -1 ∧
      (parse_gpio_env wide_board (fun _ => some ['9', '9', '9', ':', '1']) []
        ⟨100, 100⟩).env = ⟨999, 1⟩) :=
  ⟨⟨by decide,
      (parse_gpio_env_overwrites_record wide_board (fun _ => some ['7']) []
        ⟨100, 100⟩).2 ['7'] rfl⟩,
    ⟨by decide,
      (parse_gpio_env_overwrites_record wide_board (fun _ => some ['9', '9', '9', ':', '1']) []
        ⟨100, 100⟩).2 ['9', '9', '9', ':', '1'] rfl⟩⟩

/-! ## Operations on two pins -/

theorem mutate_mem (b : Board) (gpio : Nat) (op : mutator) (s : Machine)
    (hv : gpio_is_valid b gpio = true) :
    (mutate b gpio op s).mem =
      poke_all s.mem (regoff_of b gpio) (shift_of b gpio) (forced op) := by
  cases op with
  | request => simp [mutate, gpio_request_eq _ _ _ hv, rmw, looked, forced, poke_all]
  | free => simp [mutate, gpio_free_eq _ _ _ hv, rmw, looked, forced, poke_all]
  | set_value v => simp [mutate, gpio_set_value_eq _ _ _ _ hv, rmw, looked, forced, poke_all]
  | direction_input =>
    simp [mutate, gpio_direction_input_eq _ _ _ hv, rmw, looked, forced, poke_all]
  | direction_output v =>
    simp [mutate, gpio_direction_output_eq _ _ _ _ hv, rmw, looked, forced, poke_all]
  | setpull pull =>
    cases pull with
    | GPIO_PULL_NONE =>
      simp [mutate, gpio_setpull_none_eq _ _ _ hv, rmw, looked, forced, poke_all]
    | GPIO_PULL_UP =>
      simp [mutate, gpio_setpull_up_eq _ _ _ hv, rmw, looked, forced, poke_all]
    | GPIO_PULL_DOWN =>
      simp [mutate, gpio_setpull_down_eq _ _ _ hv, rmw, looked, forced, poke_all]
    | other code => simp [mutate, gpio_setpull, hv, forced, poke_all]

theorem forced_banks (op : mutator) : ∀ x, x ∈ forced op → x.1 ∈ pin_banks := by
  intro x hx
  cases op with
  | request => simp [forced] at hx; subst hx; simp [pin_banks]
  | free => simp [forced] at hx; subst hx; simp [pin_banks]
  | set_value v => simp [forced] at hx; subst hx; simp [pin_banks]
  | direction_input =>
    simp [forced] at hx
    rcases hx with h | h <;> subst h <;> simp [pin_banks]
  | direction_output v =>
    simp [forced] at hx
    rcases hx with h | h | h <;> subst h <;> simp [pin_banks]
  | setpull pull =>
    cases pull with
    | GPIO_PULL_NONE => simp [forced] at hx; subst hx; simp [pin_banks]
    | GPIO_PULL_UP =>
      simp [forced] at hx
      rcases hx with h | h <;> subst h <;> simp [pin_banks]
    | GPIO_PULL_DOWN =>
      simp [forced] at hx
      rcases hx with h | h <;> subst h <;> simp [pin_banks]
    | other code => simp [forced] at hx

theorem poke_all_miss (m : Nat → Fin 256) (regoff shift : Nat) (l : List (Nat × Bool))
    (a i : Nat) (h : ¬ touches regoff shift l a i) :
    reg_bit (poke_all m regoff shift l) a i = reg_bit m a i := by
  induction l generalizing m with
  | nil => rfl
  | cons x l ih =>
    have hl : ¬ touches regoff shift l a i := fun ht =>
      h ⟨ht.1, ht.2.1, ht.2.2.elim fun y hy => ⟨y, List.mem_cons_of_mem _ hy.1, hy.2⟩⟩
    simp only [poke_all]
    rw [ih _ hl, reg_bit_poke, if_neg]
    intro hc
    exact h ⟨hc.2.2, hc.2.1, x, List.mem_cons_self _ _, hc.1⟩

theorem poke_all_hit (m m2 : Nat → Fin 256) (regoff shift : Nat) (l : List (Nat × Bool))
    (a i : Nat) (h : touches regoff shift l a i) :
    reg_bit (poke_all m regoff shift l) a i = reg_bit (poke_all m2 regoff shift l) a i := by
  induction l generalizing m m2 with
  | nil =>
    obtain ⟨_, _, x, hx, _⟩ := h
    cases hx
  | cons x l ih =>
    simp only [poke_all]
    by_cases hl : touches regoff shift l a i
    · exact ih _ _ hl
    · rw [poke_all_miss _ _ _ _ _ _ hl, poke_all_miss _ _ _ _ _ _ hl, reg_bit_poke,
        reg_bit_poke]
      obtain ⟨h8, hi, y, hy, ha⟩ := h
      have hyx : y = x := by
        rcases List.mem_cons.mp hy with e | e
        · exact e
        · exact absurd ⟨h8, hi, y, e, ha⟩ hl
      subst hyx
      rw [if_pos ⟨ha, hi, h8⟩, if_pos ⟨ha, hi, h8⟩]

theorem poke_all_comm (m : Nat → Fin 256) (r1 s1 r2 s2 : Nat) (l1 l2 : List (Nat × Bool))
    (hdis : ∀ a i, ¬ (touches r1 s1 l1 a i ∧ touches r2 s2 l2 a i)) :
    poke_all (poke_all m r1 s1 l1) r2 s2 l2 = poke_all (poke_all m r2 s2 l2) r1 s1 l1 := by
  apply mem_ext
  intro a i
  show reg_bit _ a i = reg_bit _ a i
  by_cases h2 : touches r2 s2 l2 a i
  · have h1 : ¬ touches r1 s1 l1 a i := fun h => hdis a i ⟨h, h2⟩
    rw [poke_all_miss _ r1 s1 l1 a i h1]
    exact poke_all_hit _ _ _ _ _ _ _ h2
  · rw [poke_all_miss _ r2 s2 l2 a i h2]
    by_cases h1 : touches r1 s1 l1 a i
    · exact poke_all_hit _ _ _ _ _ _ _ h1
    · rw [poke_all_miss _ r1 s1 l1 a i h1, poke_all_miss _ r1 s1 l1 a i h1,
        poke_all_miss _ r2 s2 l2 a i h2]

theorem pin_banks_separate (b1 b2 r1 r2 : Nat) (h1 : b1 ∈ pin_banks) (h2 : b2 ∈ pin_banks)
    (hr1 : r1 < 0x40) (hr2 : r2 < 0x40) (h : port_base + b1 + r1 = port_base + b2 + r2) :
    r1 = r2 := by
  simp only [pin_banks, ENABLE_REGS, DIRECTION_REGS, OUTVALUE_REGS, PULLENABLE_REGS,
    PULLCONTROL_REGS, List.mem_cons, List.mem_singleton, List.not_mem_nil, or_false] at h1 h2
  omega

theorem poke_all_other (m : Nat → Fin 256) (regoff shift : Nat) (l : List (Nat × Bool))
    (a : Nat) (h : ∀ x, x ∈ l → a ≠ port_base + x.1 + regoff) :
    poke_all m regoff shift l a = m a := by
  induction l generalizing m with
  | nil => rfl
  | cons x l ih =>
    simp only [poke_all]
    rw [ih _ (fun y hy => h y (List.mem_cons_of_mem _ hy)),
      poke_other _ _ _ _ _ (h x (List.mem_cons_self _ _))]

theorem not_touches_other_pin (rp sp rq sq bank : Nat) (l : List (Nat × Bool))
    (hl : ∀ x, x ∈ l → x.1 ∈ pin_banks) (hb : bank ∈ pin_banks)
    (hrp : rp < 0x40) (hrq : rq < 0x40) (hne : (rp, sp) ≠ (rq, sq)) :
    ¬ touches rp sp l (port_base + bank + rq) sq := by
  rintro ⟨_, hi, x, hx, ha⟩
  have hr := pin_banks_separate bank x.1 rq rp hb (hl x hx) hrq hrp ha
  exact hne (by rw [hr, hi])

/-- C19: for two valid pins whose register offsets are below 0x40 and whose
descriptors differ in (regoff, shift), running any single-pin operation on the
first and then any on the second leaves the same register file as running them
in the opposite order, and neither operation changes the bit of the other pin
in the Enable, Direction, Output-Value, pull-enable or pull-control bank. -/
theorem mutators_commute (b : Board) (p q : Nat) (opp opq : mutator) (s : Machine)
    (hp : gpio_is_valid b p = true) (hq : gpio_is_valid b q = true)
    (hrp : regoff_of b p < 0x40) (hrq : regoff_of b q < 0x40)
    (hne : (regoff_of b p, shift_of b p) ≠ (regoff_of b q, shift_of b q)) :
    (mutate b q opq (mutate b p opp s)).mem = (mutate b p opp (mutate b q opq s)).mem ∧
    (∀ bank, bank ∈ pin_banks →
      reg_bit (mutate b p opp s).mem (port_base + bank + regoff_of b q) (shift_of b q) =
        reg_bit s.mem (port_base + bank + regoff_of b q) (shift_of b q)) ∧
    (∀ bank, bank ∈ pin_banks →
      reg_bit (mutate b q opq s).mem (port_base + bank + regoff_of b p) (shift_of b p) =
        reg_bit s.mem (port_base + bank + regoff_of b p) (shift_of b p)) := by
  refine ⟨?_, ?_, ?_⟩
  · rw [mutate_mem b q opq _ hq, mutate_mem b p opp _ hp, mutate_mem b p opp _ hp,
      mutate_mem b q opq _ hq]
    apply poke_all_comm
    rintro a i ⟨⟨_, hi1, x, hx, ha1⟩, ⟨_, hi2, y, hy, ha2⟩⟩
    have hr := pin_banks_separate x.1 y.1 _ _ (forced_banks opp x hx) (forced_banks opq y hy)
      hrp hrq (ha1.symm.trans ha2)
    exact hne (by rw [hr, ← hi1, hi2])
  · intro bank hb
    rw [mutate_mem b p opp _ hp]
    exact poke_all_miss _ _ _ _ _ _
      (not_touches_other_pin _ _ _ _ bank _ (forced_banks opp) hb hrp hrq hne)
  · intro bank hb
    rw [mutate_mem b q opq _ hq]
    exact poke_all_miss _ _ _ _ _ _
      (not_touches_other_pin _ _ _ _ bank _ (forced_banks opq) hb hrq hrp (Ne.symm hne))

/-- Witness for C19: pins 0 and 1 of the demo board share byte 0 (bits 0 and
3); `gpio_direction_output` on pin 0 and `gpio_free` on pin 1 commute on a
register file of 0xff bytes. -/
theorem mutators_commute_witness :
    gpio_is_valid demo_board 0 = true ∧ gpio_is_valid demo_board 1 = true ∧
    regoff_of demo_board 0 < 0x40 ∧ regoff_of demo_board 1 < 0x40 ∧
    (regoff_of demo_board 0, shift_of demo_board 0) ≠
      (regoff_of demo_board 1, shift_of demo_board 1) ∧
    (mutate demo_board 1 mutator.free
        (mutate demo_board 0 (mutator.direction_output 1) (fill 255))).mem =
      (mutate demo_board 0 (mutator.direction_output 1)
        (mutate demo_board 1 mutator.free (fill 255))).mem :=
  ⟨by decide, by decide, by decide, by decide, by decide,
    (mutators_commute demo_board 0 1 (mutator.direction_output 1) mutator.free (fill 255)
      (by decide) (by decide) (by decide) (by decide) (by decide)).1⟩

/-! ## Separation of the banks -/

theorem all_banks_separate (b1 b2 r1 r2 : Nat) (h1 : b1 ∈ all_banks) (h2 : b2 ∈ all_banks)
    (hr1 : r1 < 0x40) (hr2 : r2 < 0x40) (h : port_base + b1 + r1 = port_base + b2 + r2) :
    b1 = b2 := by
  simp only [all_banks, value_banks, INVALUE_REGS, ENABLE_REGS, DIRECTION_REGS, OUTVALUE_REGS,
    PULLENABLE_REGS, PULLCONTROL_REGS, List.mem_append, List.mem_cons, List.mem_singleton,
    List.not_mem_nil, or_false] at h1 h2
  omega

theorem pin_banks_sub_all (x : Nat) (h : x ∈ pin_banks) : x ∈ all_banks := by
  simp only [pin_banks, List.mem_cons, List.mem_singleton, List.not_mem_nil, or_false] at h
  simp only [all_banks, value_banks, List.mem_append, List.mem_cons, List.mem_singleton,
    List.not_mem_nil, or_false]
  omega

/-- C20: when the register offsets of two pins are below 0x40, their addresses
in two different banks differ (among input value, enable, direction and output
value, and between pull-enable and pull-control), and an operation on the first
pin leaves unchanged every byte of the second pin in a bank the operation does
not write. When instead the offset of a valid pin with shift below 8 is 0x40
(or 0x80) above that of another pin, its Enable address is the Direction
(or Output-Value) address of that pin and `gpio_request` on it sets a bit
there; a board with such a pair of pins exists, and on it `gpio_request`
changes the Direction byte of the other pin. -/
theorem bank_separation (b : Board) (p q : Nat) (op : mutator) (s : Machine) :
    (regoff_of b p < 0x40 → regoff_of b q < 0x40 →
      (∀ B1 B2, B1 ∈ value_banks → B2 ∈ value_banks → B1 ≠ B2 →
        port_base + B1 + regoff_of b p ≠ port_base + B2 + regoff_of b q) ∧
      port_base + PULLENABLE_REGS + regoff_of b p ≠
        port_base + PULLCONTROL_REGS + regoff_of b q ∧
      port_base + PULLCONTROL_REGS + regoff_of b p ≠
        port_base + PULLENABLE_REGS + regoff_of b q ∧
      (gpio_is_valid b p = true →
        ∀ B2, B2 ∈ all_banks → (∀ x, x ∈ forced op → x.1 ≠ B2) →
          (mutate b p op s).mem (port_base + B2 + regoff_of b q) =
            s.mem (port_base + B2 + regoff_of b q))) ∧
    (gpio_is_valid b p = true → shift_of b p < 8 →
      regoff_of b p = regoff_of b q + 0x40 →
      port_base + ENABLE_REGS + regoff_of b p = port_base + DIRECTION_REGS + regoff_of b q ∧
      reg_bit (gpio_request b p s).2.mem (port_base + DIRECTION_REGS + regoff_of b q)
        (shift_of b p) = true) ∧
    (gpio_is_valid b p = true → shift_of b p < 8 →
      regoff_of b p = regoff_of b q + 0x80 →
      port_base + ENABLE_REGS + regoff_of b p = port_base + OUTVALUE_REGS + regoff_of b q ∧
      reg_bit (gpio_request b p s).2.mem (port_base + OUTVALUE_REGS + regoff_of b q)
        (shift_of b p) = true) ∧
    (∃ (b2 : Board) (p2 q2 : Nat) (s2 : Machine),
      gpio_is_valid b2 p2 = true ∧ gpio_is_valid b2 q2 = true ∧
      0x40 ≤ regoff_of b2 p2 ∧ regoff_of b2 q2 < regoff_of b2 p2 ∧
      port_base + ENABLE_REGS + regoff_of b2 p2 =
        port_base + DIRECTION_REGS + regoff_of b2 q2 ∧
      (gpio_request b2 p2 s2).2.mem (port_base + DIRECTION_REGS + regoff_of b2 q2) ≠
        s2.mem (port_base + DIRECTION_REGS + regoff_of b2 q2)) := by
  refine ⟨fun hrp hrq => ⟨?_, ?_, ?_, ?_⟩, ?_, ?_, ⟨alias_board, 0, 1, fill 0, by decide⟩⟩
  · intro B1 B2 h1 h2 hne heq
    have hsub : ∀ x, x ∈ value_banks → x ∈ all_banks := fun x hx => by
      simp only [all_banks, List.mem_append]
      exact Or.inl hx
    exact hne (all_banks_separate B1 B2 _ _ (hsub B1 h1) (hsub B2 h2) hrp hrq heq)
  · simp only [PULLENABLE_REGS, PULLCONTROL_REGS]
    omega
  · simp only [PULLENABLE_REGS, PULLCONTROL_REGS]
    omega
  · intro hv B2 hB2 hnot
    rw [mutate_mem b p op s hv]
    apply poke_all_other
    intro x hx heq
    exact hnot x hx (all_banks_separate B2 x.1 _ _ hB2
      (pin_banks_sub_all _ (forced_banks op x hx)) hrq hrp heq).symm
  · intro hv hs hr
    have haddr : port_base + ENABLE_REGS + regoff_of b p =
        port_base + DIRECTION_REGS + regoff_of b q := by
      simp only [ENABLE_REGS, DIRECTION_REGS]
      omega
    refine ⟨haddr, ?_⟩
    rw [← haddr, gpio_request_eq b p s hv]
    simp [rmw, looked, reg_bit_poke, hs]
  · intro hv hs hr
    have haddr : port_base + ENABLE_REGS + regoff_of b p =
        port_base + OUTVALUE_REGS + regoff_of b q := by
      simp only [ENABLE_REGS, OUTVALUE_REGS]
      omega
    refine ⟨haddr, ?_⟩
    rw [← haddr, gpio_request_eq b p s hv]
    simp [rmw, looked, reg_bit_poke, hs]

/-- Witness for C20: on the board where pin 0 has register offset 0x40 and pin
1 offset 0, the Direction bit 0 of pin 1 is 0 in a register file of zero bytes
and 1 after `gpio_request` on pin 0. -/
theorem bank_separation_witness :
    gpio_is_valid alias_board 0 = true ∧ shift_of alias_board 0 < 8 ∧
    regoff_of alias_board 0 = regoff_of alias_board 1 + 0x40 ∧
    reg_bit (fill 0).mem (port_base + DIRECTION_REGS + regoff_of alias_board 1)
      (shift_of alias_board 0) = false ∧
    (port_base + ENABLE_REGS + regoff_of alias_board 0 =
        port_base + DIRECTION_REGS + regoff_of alias_board 1 ∧
      reg_bit (gpio_request alias_board 0 (fill 0)).2.mem
        (port_base + DIRECTION_REGS + regoff_of alias_board 1) (shift_of alias_board 0) = true) :=
  ⟨by decide, by decide, by decide, by decide,
    (bank_separation alias_board 0 1 mutator.request (fill 0)).2.1 (by decide) (by decide)
      (by decide)⟩

end WmtGpio
